import Mathlib

/-!
# Eye Drop Invaders: game logic of `src/script.js`

A shallow embedding of the game logic: the mutable variables of the script
become the fields of `State`, every handler becomes a function on `State`,
and what a handler reads from the page or from `Math.random()` becomes an
argument of that function.

Numbers: `score` and `timeLeft` only ever hold integers and are modelled by
`Int`; the two counters only grow from zero and are modelled by `Nat`;
coordinates, sizes and percentages are modelled by exact rationals.
-/

namespace EyeInvaders

/-! ## Data model -/

/-- An element of the play field, as far as the script looks at it: the pixel
offsets written to `style.left` and `style.top` and the rendered size.  The
element is taken to be positioned absolutely in the game area, so that its
bounding rectangle starts at these offsets. -/
structure Element where
  left : Rat
  top : Rat
  offsetWidth : Rat
  offsetHeight : Rat
deriving DecidableEq, Repr

/-- The rectangle returned by `getBoundingClientRect`. -/
structure Rect where
  left : Rat
  right : Rat
  top : Rat
  bottom : Rat
deriving DecidableEq, Repr

/-- Bounding rectangle of an element, in game-area coordinates. -/
def Element.getBoundingClientRect (el : Element) : Rect :=
  { left := el.left
    right := el.left + el.offsetWidth
    top := el.top
    bottom := el.top + el.offsetHeight }

/-- An entry of the `shots` array. -/
structure Shot where
  element : Element
  type : String
  x : Rat
  y : Rat
deriving DecidableEq, Repr

/-- An entry of the `enemies` array. -/
structure Enemy where
  element : Element
  type : String
  correctShot : String
  x : Rat
  y : Rat
deriving DecidableEq, Repr

/-- The keys of the `enemySpeed` and `enemySpawnRate` tables. -/
inductive Difficulty where
  | easy
  | medium
  | hard
deriving DecidableEq, Repr

/-- The three values `badgeName` can take in `endGame`. -/
inductive Badge where
  | Novice
  | Hero
  | Legend
deriving DecidableEq, Repr

/-- The screen made active by `showScreen`. -/
inductive Screen where
  | start
  | game
  | finished
deriving DecidableEq, Repr

/-- What `endGame` writes to the end screen. -/
structure EndResult where
  score : Int
  correctAnswers : Nat
  wrongAnswers : Nat
  badge : Badge
deriving DecidableEq, Repr

/-- The game state variables of the script.  An interval variable is `true`
when it holds the handle of a scheduled interval and `false` when it is
`null`.  `screen` and `endDisplay` mirror what the page shows. -/
structure State where
  score : Int
  timeLeft : Int
  gameInterval : Bool
  timerInterval : Bool
  enemySpawnInterval : Bool
  isGameOver : Bool
  playerX : Rat
  shots : List Shot
  enemies : List Enemy
  selectedShotType : String
  correctAnswers : Nat
  wrongAnswers : Nat
  difficulty : Difficulty
  screen : Screen
  endDisplay : Option EndResult
deriving DecidableEq, Repr

/-- The values the variables are declared with. -/
def initialState : State :=
  { score := 0
    timeLeft := 180
    gameInterval := false
    timerInterval := false
    enemySpawnInterval := false
    isGameOver := false
    playerX := 50
    shots := []
    enemies := []
    selectedShotType := "lubricant"
    correctAnswers := 0
    wrongAnswers := 0
    difficulty := Difficulty.medium
    screen := Screen.start
    endDisplay := none }

/-! ## Game configuration -/

def playerSpeed : Rat := 2

def shotSpeed : Rat := 8

def enemySpeed : Difficulty → Rat
  | Difficulty.easy => 1 / 2
  | Difficulty.medium => 1
  | Difficulty.hard => 3 / 2

def enemySpawnRate : Difficulty → Nat
  | Difficulty.easy => 7000
  | Difficulty.medium => 5000
  | Difficulty.hard => 3000

def pointsCorrect : Int := 100

def pointsWrong : Int := -20

/-- One row of the `enemyTypes` table. -/
structure EnemyType where
  type : String
  label : String
  correctShot : String
  color : String
deriving DecidableEq, Repr

def enemyTypes : List EnemyType :=
  [ { type := "dry-eye", label := "Dry eye", correctShot := "lubricant", color := "#17a2b8" },
    { type := "allergic-conjunctivitis", label := "Conjunctivitis",
      correctShot := "antihistaminic", color := "#ffc107" },
    { type := "sore-eye", label := "Sore eye", correctShot := "decongestant", color := "#fd7e14" },
    { type := "red-eyes", label := "Rhinitis", correctShot := "cs", color := "#dc3545" },
    { type := "glaucoma", label := "Glaucoma", correctShot := "ts", color := "#6f42c1" } ]

/-- The keys of the `shotTypes` table. -/
def shotTypes : List String :=
  ["lubricant", "antihistaminic", "decongestant", "cs", "ts"]

/-! ## Scoring -/

/-- The function `handleCollision`: score and counters; the explosion it draws
is not part of the state. -/
def handleCollision (s : State) (shot : Shot) (enemy : Enemy) : State :=
  let s1 : State :=
    if shot.type = enemy.correctShot then
      { s with score := s.score + pointsCorrect, correctAnswers := s.correctAnswers + 1 }
    else
      { s with score := s.score + pointsWrong, wrongAnswers := s.wrongAnswers + 1 }
  { s1 with score := max 0 s1.score }

/-- A sequence of `handleCollision` calls, one per pair. -/
def resolveHits (s : State) (hits : List (Shot × Enemy)) : State :=
  hits.foldl (fun st h => handleCollision st h.1 h.2) s

/-! ## Collision detection -/

/-- The function `isColliding`; `none` stands for a missing element. -/
def isColliding (el1 el2 : Option Element) : Bool :=
  match el1, el2 with
  | some e1, some e2 =>
    let rect1 := e1.getBoundingClientRect
    let rect2 := e2.getBoundingClientRect
    !(decide (rect1.right < rect2.left) ||
      decide (rect1.left > rect2.right) ||
      decide (rect1.bottom < rect2.top) ||
      decide (rect1.top > rect2.bottom))
  | _, _ => false

/-- The inner loop of `checkCollisions` for the shot at index `i`: the enemies
at the indices below the counter are still to be visited, from the highest
down.  On the first overlap the pair is scored, the enemy and the shot are
spliced out and the loop is left. -/
def checkCollisionsInner (s : State) (i : Nat) (shot : Shot) : Nat → State
  | 0 => s
  | j + 1 =>
    match s.enemies[j]? with
    | none => s
    | some enemy =>
      if isColliding (some shot.element) (some enemy.element) then
        let s1 := handleCollision s shot enemy
        let s2 : State := { s1 with enemies := s1.enemies.eraseIdx j }
        { s2 with shots := s2.shots.eraseIdx i }
      else
        checkCollisionsInner s i shot j

/-- The outer loop of `checkCollisions`: the shots at the indices below the
counter are still to be visited, from the highest down. -/
def checkCollisionsOuter (s : State) : Nat → State
  | 0 => s
  | i + 1 =>
    match s.shots[i]? with
    | none => s
    | some shot =>
      checkCollisionsOuter (checkCollisionsInner s i shot s.enemies.length) i

/-- The function `checkCollisions`. -/
def checkCollisions (s : State) : State :=
  checkCollisionsOuter s s.shots.length

/-! ## Motion -/

/-- The loop of `moveShots` over the indices below the counter. -/
def moveShotsLoop (shots : List Shot) : Nat → List Shot
  | 0 => shots
  | i + 1 =>
    match shots[i]? with
    | none => shots
    | some shot =>
      let y := shot.y - shotSpeed
      let moved : Shot := { shot with y := y, element := { shot.element with top := y } }
      if moved.y < -moved.element.offsetHeight then
        moveShotsLoop (shots.eraseIdx i) i
      else
        moveShotsLoop (shots.set i moved) i

/-- The function `moveShots`. -/
def moveShots (s : State) : State :=
  { s with shots := moveShotsLoop s.shots s.shots.length }

/-- The loop of `moveEnemies` over the indices below the counter. -/
def moveEnemiesLoop (currentEnemySpeed gameH : Rat) (enemies : List Enemy) : Nat → List Enemy
  | 0 => enemies
  | i + 1 =>
    match enemies[i]? with
    | none => enemies
    | some enemy =>
      let y := enemy.y + currentEnemySpeed
      let moved : Enemy := { enemy with y := y, element := { enemy.element with top := y } }
      if gameH > 0 ∧ moved.y + moved.element.offsetHeight > gameH then
        moveEnemiesLoop currentEnemySpeed gameH (enemies.eraseIdx i) i
      else
        moveEnemiesLoop currentEnemySpeed gameH (enemies.set i moved) i

/-- The function `moveEnemies`; `gameH` is the value of `gameHeight()`. -/
def moveEnemies (s : State) (gameH : Rat) : State :=
  { s with enemies := moveEnemiesLoop (enemySpeed s.difficulty) gameH s.enemies s.enemies.length }

/-- The function `removeOffscreenElements`, which has an empty body. -/
def removeOffscreenElements (s : State) : State := s

/-- The function `gameLoop`. -/
def gameLoop (s : State) (gameH : Rat) : State :=
  if s.isGameOver then s
  else removeOffscreenElements (checkCollisions (moveEnemies (moveShots s) gameH))

/-! ## Round life cycle -/

/-- The accuracy computed in `endGame`, in percent. -/
def accuracy (correctAnswers wrongAnswers : Nat) : Rat :=
  let totalAnswers := correctAnswers + wrongAnswers
  if totalAnswers > 0 then ((correctAnswers : Rat) / (totalAnswers : Rat)) * 100 else 0

/-- The badge chosen in `endGame` from the score and the accuracy. -/
def badgeName (score : Int) (acc : Rat) : Badge :=
  let legendScore : Int := 5000
  let heroScore : Int := 2000
  let legendAcc : Rat := 80
  let heroAcc : Rat := 60
  if score ≥ legendScore ∧ acc ≥ legendAcc then Badge.Legend
  else if score ≥ heroScore ∧ acc ≥ heroAcc then Badge.Hero
  else Badge.Novice

/-- The function `endGame`. -/
def endGame (s : State) : State :=
  if s.isGameOver then s
  else
    { s with
      isGameOver := true
      gameInterval := false
      timerInterval := false
      enemySpawnInterval := false
      endDisplay := some
        { score := s.score
          correctAnswers := s.correctAnswers
          wrongAnswers := s.wrongAnswers
          badge := badgeName s.score (accuracy s.correctAnswers s.wrongAnswers) }
      screen := Screen.finished }

/-- The function `updateTimer`. -/
def updateTimer (s : State) : State :=
  if s.isGameOver then s
  else
    let s1 : State := { s with timeLeft := s.timeLeft - 1 }
    if s1.timeLeft ≤ 0 then endGame s1 else s1

/-- The function `startGame`. -/
def startGame (s : State) : State :=
  { s with
    isGameOver := false
    score := 0
    timeLeft := 180
    correctAnswers := 0
    wrongAnswers := 0
    shots := []
    enemies := []
    playerX := 50
    screen := Screen.game
    gameInterval := true
    timerInterval := true
    enemySpawnInterval := true }

/-- The click handler of a difficulty button. -/
def difficultyClick (s : State) (d : Difficulty) : State :=
  startGame { s with difficulty := d }

/-- The function `resetGame`. -/
def resetGame (s : State) : State :=
  let s1 : State :=
    if !s.isGameOver then
      { s with gameInterval := false, timerInterval := false, enemySpawnInterval := false }
    else s
  { s1 with
    enemies := []
    shots := []
    score := 0
    timeLeft := 180
    correctAnswers := 0
    wrongAnswers := 0
    playerX := 50
    selectedShotType := "lubricant"
    isGameOver := false
    screen := Screen.start }

/-! ## Input commands -/

/-- The function `movePlayer`; `gameW` is `gameWidth()` and `playerW` the
rendered width of the player.  The arithmetic is exact here;
`movePlayerRounded` is the same handler with the rounding of each double
operation made explicit. -/
def movePlayer (s : State) (direction : String) (gameW playerW : Rat) : State :=
  if s.isGameOver then s
  else if gameW = 0 ∨ gameW ≤ 0 then s
  else
    let playerHalfWidthPercent := playerW / gameW * 50
    let playerX :=
      if direction = "left" then s.playerX - playerSpeed
      else if direction = "right" then s.playerX + playerSpeed
      else s.playerX
    { s with playerX := max playerHalfWidthPercent (min (100 - playerHalfWidthPercent) playerX) }

/-- The function `shoot`; the arguments are the offsets of the player
element in the game area. -/
def shoot (s : State) (offsetLeft offsetWidth offsetTop : Rat) : State :=
  if s.isGameOver then s
  else
    let shotWidth : Rat := 8
    let shotHeight : Rat := 15
    let playerTopCenterX := offsetLeft + offsetWidth / 2
    let shotX := playerTopCenterX - shotWidth / 2
    let shotY := offsetTop - shotHeight
    { s with
      shots := s.shots ++
        [{ element :=
             { left := shotX, top := shotY, offsetWidth := shotWidth, offsetHeight := shotHeight }
           type := s.selectedShotType
           x := shotX
           y := shotY }] }

/-- The function `spawnEnemy`; `rType` and `rX` are the two values drawn from
`Math.random()`, `gameW` is `gameWidth()`, and `enemyW`, `enemyH` the rendered
size the style sheet gives an enemy. -/
def spawnEnemy (s : State) (rType rX gameW enemyW enemyH : Rat) : State :=
  if s.isGameOver then s
  else
    let k := Rat.floor (rType * (enemyTypes.length : Rat))
    if k < 0 then s
    else
      match enemyTypes[k.toNat]? with
      | none => s
      | some randomEnemyType =>
        let enemyWidth : Rat := 45
        if gameW = 0 ∨ gameW ≤ 0 then s
        else
          let spawnX := rX * (gameW - enemyWidth)
          let spawnY : Rat := -60
          { s with
            enemies := s.enemies ++
              [{ element :=
                   { left := spawnX, top := spawnY, offsetWidth := enemyW, offsetHeight := enemyH }
                 type := randomEnemyType.type
                 correctShot := randomEnemyType.correctShot
                 x := spawnX
                 y := spawnY }] }

/-- The click handler of a shot selection button carrying the given type. -/
def shotButtonClick (s : State) (shotType : String) : State :=
  { s with selectedShotType := shotType }

/-- The function `selectShotByIndex`; `buttons` lists the shot types of the
selection buttons in document order. -/
def selectShotByIndex (s : State) (index : Int) (buttons : List String) : State :=
  if s.isGameOver then s
  else if index ≥ 0 ∧ index < (buttons.length : Int) then
    match buttons[index.toNat]? with
    | none => s
    | some shotType => { s with selectedShotType := shotType }
  else s

/-! ## Step relation -/

/-- The handlers that can run, each with what it reads from the page. -/
inductive Command where
  | startGame
  | difficultyClick (d : Difficulty)
  | resetGame
  | updateTimer
  | gameLoop (gameH : Rat)
  | spawnEnemy (rType rX gameW enemyW enemyH : Rat)
  | shoot (offsetLeft offsetWidth offsetTop : Rat)
  | movePlayer (direction : String) (gameW playerW : Rat)
  | shotButtonClick (shotType : String)
  | selectShotByIndex (index : Int) (buttons : List String)
deriving DecidableEq, Repr

/-- Running one handler. -/
def step (s : State) : Command → State
  | Command.startGame => startGame s
  | Command.difficultyClick d => difficultyClick s d
  | Command.resetGame => resetGame s
  | Command.updateTimer => updateTimer s
  | Command.gameLoop gameH => gameLoop s gameH
  | Command.spawnEnemy rType rX gameW enemyW enemyH => spawnEnemy s rType rX gameW enemyW enemyH
  | Command.shoot offsetLeft offsetWidth offsetTop => shoot s offsetLeft offsetWidth offsetTop
  | Command.movePlayer direction gameW playerW => movePlayer s direction gameW playerW
  | Command.shotButtonClick shotType => shotButtonClick s shotType
  | Command.selectShotByIndex index buttons => selectShotByIndex s index buttons

/-- Running a sequence of handlers, one after the other. -/
def run (s : State) (cs : List Command) : State :=
  cs.foldl step s

/-- The state after the given number of countdown ticks. -/
def ticks (s : State) : Nat → State
  | 0 => s
  | k + 1 => updateTimer (ticks s k)

/-- The accuracy as the specification words it: the fraction of correct
answers among all answers, and zero when there is no answer. -/
def accuracyFraction (correctAnswers wrongAnswers : Nat) : Rat :=
  if correctAnswers + wrongAnswers = 0 then 0
  else (correctAnswers : Rat) / ((correctAnswers : Rat) + (wrongAnswers : Rat))

/-! ## Sample states -/

/-- A running round with two shots and two enemies: the first shot overlaps
the first enemy, the second shot overlaps nothing. -/
def sampleTwoShots : State :=
  { startGame initialState with
    shots :=
      [⟨⟨0, 0, 8, 15⟩, "lubricant", 0, 0⟩,
       ⟨⟨100, 100, 8, 15⟩, "ts", 100, 100⟩]
    enemies :=
      [⟨⟨4, 10, 45, 40⟩, "glaucoma", "ts", 4, 10⟩,
       ⟨⟨300, 0, 45, 40⟩, "dry-eye", "lubricant", 300, 0⟩] }

/-- A running round with two shots and three enemies: the shot at index 1
overlaps the enemies at the indices 0 and 1 and not the enemy at index 2; the
shot at index 0 overlaps no enemy. -/
def sampleMultiOverlap : State :=
  { startGame initialState with
    shots :=
      [⟨⟨120, 300, 8, 15⟩, "cs", 120, 300⟩,
       ⟨⟨20, 30, 8, 15⟩, "lubricant", 20, 30⟩]
    enemies :=
      [⟨⟨0, 0, 45, 40⟩, "dry-eye", "lubricant", 0, 0⟩,
       ⟨⟨25, 20, 45, 40⟩, "glaucoma", "ts", 25, 20⟩,
       ⟨⟨200, 0, 45, 40⟩, "sore-eye", "decongestant", 200, 0⟩] }

/-- Whether a call of `updateTimer` in the given state reaches its call of
`endGame`: the game is not over and the decremented `timeLeft` is at most 0. -/
def updateTimerCallsEndGame (s : State) : Bool :=
  !s.isGameOver && decide (s.timeLeft - 1 ≤ 0)

/-! ## Phases -/

/-- The phase of the round, in the vocabulary of the specification. -/
inductive Phase where
  | Idle
  | Running
  | Ended
deriving DecidableEq, Repr

/-- The phase read off the variables: Ended when `isGameOver` is set, Running
when it is not and the three intervals are scheduled, Idle otherwise. -/
def phase (s : State) : Phase :=
  if s.isGameOver then Phase.Ended
  else if s.gameInterval && s.timerInterval && s.enemySpawnInterval then Phase.Running
  else Phase.Idle

/-- The variables that decide the phase and which tick handlers can fire. -/
def control (s : State) : Bool × Bool × Bool × Bool :=
  (s.isGameOver, s.gameInterval, s.timerInterval, s.enemySpawnInterval)

/-- The three interval variables agree, and none is scheduled once the game is
over. -/
def coherent (s : State) : Bool :=
  (s.gameInterval == s.timerInterval) && (s.enemySpawnInterval == s.timerInterval) &&
    !(s.isGameOver && s.timerInterval)

/-- Whether a handler can run in a state: an interval callback runs only while
its interval is scheduled; the handlers of user input can always run. -/
def enabled (s : State) : Command → Bool
  | Command.updateTimer => s.timerInterval
  | Command.gameLoop _ => s.gameInterval
  | Command.spawnEnemy _ _ _ _ _ => s.enemySpawnInterval
  | _ => true

/-- The state after a full round: `startGame` and then 180 countdown ticks. -/
def sampleEnded : State :=
  ticks (startGame initialState) 180

/-- A freshly started round holding one `lubricant` shot and one overlapping
enemy of the given type that requires the given shot type. -/
def samplePair (enemyType correctShot : String) : State :=
  { startGame initialState with
    shots := [⟨⟨196, 100, 8, 15⟩, "lubricant", 196, 100⟩]
    enemies := [⟨⟨180, 80, 45, 40⟩, enemyType, correctShot, 180, 80⟩] }

/-- A running round of medium difficulty with three enemies, the last of which
is one step away from leaving a field of height 600. -/
def sampleDescent : State :=
  { startGame initialState with
    enemies :=
      [⟨⟨10, -60, 45, 40⟩, "dry-eye", "lubricant", 10, -60⟩,
       ⟨⟨90, 200, 45, 40⟩, "glaucoma", "ts", 90, 200⟩,
       ⟨⟨300, 560, 45, 40⟩, "red-eyes", "cs", 300, 560⟩] }

/-- The rank of a badge in the order Novice, Hero, Legend. -/
def tier : Badge → Nat
  | Badge.Novice => 0
  | Badge.Hero => 1
  | Badge.Legend => 2

/-- The part of the state a hit writes: score and the two counters. -/
def scoring (s : State) : Int × Nat × Nat :=
  (s.score, s.correctAnswers, s.wrongAnswers)

/-- The settings of the player: the selected shot type and the difficulty. -/
def settings (s : State) : String × Difficulty :=
  (s.selectedShotType, s.difficulty)

/-- The part of the state a round works on: score, counters, shots and
enemies. -/
def roundData (s : State) : Int × Nat × Nat × List Shot × List Enemy :=
  (s.score, s.correctAnswers, s.wrongAnswers, s.shots, s.enemies)

/-! ## Calls of `handleCollision` -/

/-- The call of `handleCollision` the inner loop of `checkCollisions` makes
for the shot, if any: the same traversal as `checkCollisionsInner`, recording
the pair instead of handling it. -/
def handleCollisionCallsInner (s : State) (shot : Shot) : Nat → List (Shot × Enemy)
  | 0 => []
  | j + 1 =>
    match s.enemies[j]? with
    | none => []
    | some enemy =>
      if isColliding (some shot.element) (some enemy.element) then [(shot, enemy)]
      else handleCollisionCallsInner s shot j

/-- The calls of `handleCollision` the outer loop of `checkCollisions` makes,
in their order: the same traversal as `checkCollisionsOuter`. -/
def handleCollisionCallsOuter (s : State) : Nat → List (Shot × Enemy)
  | 0 => []
  | i + 1 =>
    match s.shots[i]? with
    | none => []
    | some shot =>
      handleCollisionCallsInner s shot s.enemies.length ++
        handleCollisionCallsOuter (checkCollisionsInner s i shot s.enemies.length) i

/-- The pairs one `checkCollisions` pass hands to `handleCollision`. -/
def handleCollisionCalls (s : State) : List (Shot × Enemy) :=
  handleCollisionCallsOuter s s.shots.length

/-! ## Counting calls -/

/-- The handlers of a running round: the three interval callbacks and the two
player commands. -/
def inRound : Command → Bool
  | Command.shoot _ _ _ => true
  | Command.spawnEnemy _ _ _ _ _ => true
  | Command.gameLoop _ => true
  | Command.movePlayer _ _ _ => true
  | Command.updateTimer => true
  | _ => false

/-- Whether a handler run is a call of `shoot`. -/
def isShoot : Command → Bool
  | Command.shoot _ _ _ => true
  | _ => false

/-- Whether a handler run is a call of `spawnEnemy`. -/
def isSpawn : Command → Bool
  | Command.spawnEnemy _ _ _ _ _ => true
  | _ => false

/-- The number of `shoot` calls in a sequence of handler runs. -/
def shootCalls (cs : List Command) : Nat :=
  cs.countP isShoot

/-- The number of `spawnEnemy` calls in a sequence of handler runs. -/
def spawnCalls (cs : List Command) : Nat :=
  cs.countP isSpawn

/-- The answers counted so far and the shots still in flight fit in `a`, the
answers and the enemies still in the field fit in `b`, and the score is at
most 100 times the correct answers. -/
def hitsWithin (s : State) (a b : Nat) : Prop :=
  s.correctAnswers + s.wrongAnswers + s.shots.length ≤ a ∧
  s.correctAnswers + s.wrongAnswers + s.enemies.length ≤ b ∧
  s.score ≤ 100 * (s.correctAnswers : Int)

/-- A short round: an enemy is spawned, a shot is fired below it, and one
`gameLoop` tick brings the two together. -/
def sampleRound : List Command :=
  [Command.spawnEnemy 0 (1 / 2) 445 45 100, Command.shoot 200 40 40, Command.gameLoop 600]

/-! ## Rounding -/

/-- The function `movePlayer` with the rounding of double arithmetic made
explicit: `fl` maps the exact result of an arithmetic operation to the double
that holds it.  Each of `/`, `*`, `-` and `+` of the source is one rounding;
`Math.max` and `Math.min` pick one of their arguments and round nothing. -/
def movePlayerRounded (fl : Rat → Rat) (s : State) (direction : String)
    (gameW playerW : Rat) : State :=
  if s.isGameOver then s
  else if gameW = 0 ∨ gameW ≤ 0 then s
  else
    let playerHalfWidthPercent := fl (fl (playerW / gameW) * 50)
    let playerX :=
      if direction = "left" then fl (s.playerX - playerSpeed)
      else if direction = "right" then fl (s.playerX + playerSpeed)
      else s.playerX
    { s with
      playerX := max playerHalfWidthPercent (min (fl (100 - playerHalfWidthPercent)) playerX) }

/-- A sample rounding, to the nearest multiple of 1/8. -/
def roundEighth (r : Rat) : Rat :=
  ((Rat.floor (r * 8 + 1 / 2) : Int) : Rat) / 8

/-- A running round with two shots and two enemies in which each shot
overlaps each enemy. -/
def sampleDoubleOverlap : State :=
  { startGame initialState with
    shots :=
      [⟨⟨22, 32, 8, 15⟩, "ts", 22, 32⟩,
       ⟨⟨20, 30, 8, 15⟩, "lubricant", 20, 30⟩]
    enemies :=
      [⟨⟨0, 0, 45, 40⟩, "dry-eye", "lubricant", 0, 0⟩,
       ⟨⟨25, 20, 45, 40⟩, "glaucoma", "ts", 25, 20⟩] }

/-! ## Scoring: theorems -/

theorem handleCollision_score (s : State) (shot : Shot) (enemy : Enemy) :
    (handleCollision s shot enemy).score =
      max 0 (s.score + if shot.type = enemy.correctShot then pointsCorrect else pointsWrong) := by
  unfold handleCollision
  split <;> rfl

theorem handleCollision_score_nonneg (s : State) (shot : Shot) (enemy : Enemy) :
    0 ≤ (handleCollision s shot enemy).score := by
  rw [handleCollision_score]
  exact le_max_left _ _

theorem resolveHits_append (s : State) (xs ys : List (Shot × Enemy)) :
    resolveHits s (xs ++ ys) = resolveHits (resolveHits s xs) ys := by
  simp [resolveHits, List.foldl_append]

theorem resolveHits_score_nonneg (hits : List (Shot × Enemy)) :
    ∀ s : State, 0 ≤ s.score → 0 ≤ (resolveHits s hits).score := by
  induction hits with
  | nil => intro s h; simpa [resolveHits] using h
  | cons p rest ih =>
    intro s _
    have := ih (handleCollision s p.1 p.2) (handleCollision_score_nonneg s p.1 p.2)
    simpa [resolveHits] using this

/-- C1: starting from a state whose score is not negative, the score is not
negative after every call of a sequence of `handleCollision` calls, whatever
the fired kind and the required kind of each call. -/
theorem score_never_negative (s : State) (h : 0 ≤ s.score) (hits : List (Shot × Enemy))
    (k : Nat) : 0 ≤ (resolveHits s (hits.take k)).score :=
  resolveHits_score_nonneg (hits.take k) s h

theorem score_never_negative_witness :
    0 ≤ (startGame initialState).score ∧
      0 ≤ (resolveHits (startGame initialState)
        (List.take 2
          [(⟨⟨0, 0, 8, 15⟩, "lubricant", 0, 0⟩, ⟨⟨0, 0, 45, 45⟩, "glaucoma", "ts", 0, 0⟩),
           (⟨⟨0, 0, 8, 15⟩, "ts", 0, 0⟩, ⟨⟨0, 0, 45, 45⟩, "glaucoma", "ts", 0, 0⟩),
           (⟨⟨0, 0, 8, 15⟩, "cs", 0, 0⟩, ⟨⟨0, 0, 45, 45⟩, "glaucoma", "ts", 0, 0⟩)])).score :=
  ⟨by decide, score_never_negative (startGame initialState) (by decide) _ 2⟩

/-- C2: `handleCollision` adds 100 to the score and one to `correctAnswers`
when the type of the shot is the `correctShot` of the enemy, and otherwise
subtracts 20 from the score and adds one to `wrongAnswers`; the score is then
raised to zero if it fell below, and the other counter is unchanged. -/
theorem handleCollision_spec (s : State) (shot : Shot) (enemy : Enemy) :
    if shot.type = enemy.correctShot then
      (handleCollision s shot enemy).score = max 0 (s.score + 100) ∧
      (handleCollision s shot enemy).correctAnswers = s.correctAnswers + 1 ∧
      (handleCollision s shot enemy).wrongAnswers = s.wrongAnswers
    else
      (handleCollision s shot enemy).score = max 0 (s.score - 20) ∧
      (handleCollision s shot enemy).wrongAnswers = s.wrongAnswers + 1 ∧
      (handleCollision s shot enemy).correctAnswers = s.correctAnswers := by
  unfold handleCollision
  split
  · exact ⟨rfl, rfl, rfl⟩
  · exact ⟨rfl, rfl, rfl⟩

/-! ## Badge: theorems -/

theorem accuracy_eq_fraction (c w : Nat) : accuracy c w = accuracyFraction c w * 100 := by
  unfold accuracy accuracyFraction
  by_cases h : c + w = 0
  · simp [h]
  · have hpos : c + w > 0 := Nat.pos_of_ne_zero h
    simp only [hpos, h, if_true, if_false]
    push_cast
    rfl

theorem badgeName_legend_iff (score : Int) (acc : Rat) :
    badgeName score acc = Badge.Legend ↔ (score ≥ 5000 ∧ acc ≥ 80) := by
  unfold badgeName
  by_cases h1 : (score ≥ 5000 ∧ acc ≥ 80)
  · simp [h1]
  · by_cases h2 : (score ≥ 2000 ∧ acc ≥ 60) <;> simp [h1, h2]

theorem badgeName_hero_iff (score : Int) (acc : Rat) :
    badgeName score acc = Badge.Hero ↔
      (¬(score ≥ 5000 ∧ acc ≥ 80) ∧ (score ≥ 2000 ∧ acc ≥ 60)) := by
  unfold badgeName
  by_cases h1 : (score ≥ 5000 ∧ acc ≥ 80)
  · simp [h1]
  · by_cases h2 : (score ≥ 2000 ∧ acc ≥ 60) <;> simp [h1, h2]

theorem badgeName_novice_iff (score : Int) (acc : Rat) :
    badgeName score acc = Badge.Novice ↔
      (¬(score ≥ 5000 ∧ acc ≥ 80) ∧ ¬(score ≥ 2000 ∧ acc ≥ 60)) := by
  unfold badgeName
  by_cases h1 : (score ≥ 5000 ∧ acc ≥ 80)
  · simp [h1]
  · by_cases h2 : (score ≥ 2000 ∧ acc ≥ 60) <;> simp [h1, h2]

theorem endGame_endDisplay (s : State) (h : s.isGameOver = false) :
    (endGame s).endDisplay = some
      { score := s.score
        correctAnswers := s.correctAnswers
        wrongAnswers := s.wrongAnswers
        badge := badgeName s.score (accuracyFraction s.correctAnswers s.wrongAnswers * 100) } := by
  simp [endGame, h, accuracy_eq_fraction]

/-- C3: the badge `endGame` reports depends on the score and the accuracy
only, the accuracy being the fraction of correct answers among all answers
and zero without answers: Legend exactly when the score is at least 5000 and
the accuracy at least 80 percent, otherwise Hero exactly when the score is at
least 2000 and the accuracy at least 60 percent, otherwise Novice.  In
particular score 5000 with accuracy 0.8 gives Legend, score 2000 with accuracy
0.6 gives Hero, and score 0 with accuracy 0 gives Novice. -/
theorem endGame_badge (s : State) (h : s.isGameOver = false) :
    ∃ b : Badge,
      (endGame s).endDisplay = some ⟨s.score, s.correctAnswers, s.wrongAnswers, b⟩ ∧
      (b = Badge.Legend ↔
        (s.score ≥ 5000 ∧ accuracyFraction s.correctAnswers s.wrongAnswers ≥ 4 / 5)) ∧
      (b = Badge.Hero ↔
        (¬(s.score ≥ 5000 ∧ accuracyFraction s.correctAnswers s.wrongAnswers ≥ 4 / 5) ∧
          (s.score ≥ 2000 ∧ accuracyFraction s.correctAnswers s.wrongAnswers ≥ 3 / 5))) ∧
      (b = Badge.Novice ↔
        (¬(s.score ≥ 5000 ∧ accuracyFraction s.correctAnswers s.wrongAnswers ≥ 4 / 5) ∧
          ¬(s.score ≥ 2000 ∧ accuracyFraction s.correctAnswers s.wrongAnswers ≥ 3 / 5))) ∧
      (∀ t : State, t.isGameOver = false → t.score = s.score →
        accuracyFraction t.correctAnswers t.wrongAnswers =
          accuracyFraction s.correctAnswers s.wrongAnswers →
        (endGame t).endDisplay = some ⟨t.score, t.correctAnswers, t.wrongAnswers, b⟩) ∧
      (s.score = 5000 → accuracyFraction s.correctAnswers s.wrongAnswers = 4 / 5 →
        b = Badge.Legend) ∧
      (s.score = 2000 → accuracyFraction s.correctAnswers s.wrongAnswers = 3 / 5 →
        b = Badge.Hero) ∧
      (s.score = 0 → accuracyFraction s.correctAnswers s.wrongAnswers = 0 →
        b = Badge.Novice) := by
  have e80 : ∀ a : Rat, a * 100 ≥ 80 ↔ a ≥ 4 / 5 := fun a => by
    constructor <;> intro hh <;> linarith
  have e60 : ∀ a : Rat, a * 100 ≥ 60 ↔ a ≥ 3 / 5 := fun a => by
    constructor <;> intro hh <;> linarith
  refine ⟨badgeName s.score (accuracyFraction s.correctAnswers s.wrongAnswers * 100),
    endGame_endDisplay s h, ?_, ?_, ?_, ?_, ?_, ?_, ?_⟩
  · rw [badgeName_legend_iff, e80]
  · rw [badgeName_hero_iff, e80, e60]
  · rw [badgeName_novice_iff, e80, e60]
  · intro t ht hs ha
    rw [endGame_endDisplay t ht, hs, ha]
  · intro hs ha
    rw [badgeName_legend_iff, hs, ha]
    norm_num
  · intro hs ha
    rw [badgeName_hero_iff, hs, ha]
    norm_num
  · intro hs ha
    rw [badgeName_novice_iff, hs, ha]
    norm_num

theorem endGame_badge_witness :
    ∃ b : Badge,
      (endGame ⟨5000, 1, true, true, true, false, 50, [], [], "lubricant", 52, 13,
        Difficulty.medium, Screen.game, none⟩).endDisplay = some ⟨5000, 52, 13, b⟩ ∧
      b = Badge.Legend := by
  obtain ⟨b, hb, -, -, -, -, hl, -, -⟩ :=
    endGame_badge ⟨5000, 1, true, true, true, false, 50, [], [], "lubricant", 52, 13,
      Difficulty.medium, Screen.game, none⟩ rfl
  exact ⟨b, hb, hl rfl (by norm_num [accuracyFraction])⟩

/-! ## Collision resolution: theorems -/

theorem handleCollision_shots (s : State) (shot : Shot) (enemy : Enemy) :
    (handleCollision s shot enemy).shots = s.shots := by
  unfold handleCollision
  split <;> rfl

theorem handleCollision_enemies (s : State) (shot : Shot) (enemy : Enemy) :
    (handleCollision s shot enemy).enemies = s.enemies := by
  unfold handleCollision
  split <;> rfl

theorem handleCollision_answers (s : State) (shot : Shot) (enemy : Enemy) :
    (handleCollision s shot enemy).correctAnswers + (handleCollision s shot enemy).wrongAnswers =
      s.correctAnswers + s.wrongAnswers + 1 := by
  unfold handleCollision
  split
  · show s.correctAnswers + 1 + s.wrongAnswers = _
    omega
  · show s.correctAnswers + (s.wrongAnswers + 1) = _
    omega

theorem checkCollisionsInner_zero (s : State) (i : Nat) (shot : Shot) :
    checkCollisionsInner s i shot 0 = s := rfl

theorem checkCollisionsInner_succ (s : State) (i : Nat) (shot : Shot) (j : Nat) (enemy : Enemy)
    (he : s.enemies[j]? = some enemy) :
    checkCollisionsInner s i shot (j + 1) =
      if isColliding (some shot.element) (some enemy.element) then
        { handleCollision s shot enemy with
          enemies := s.enemies.eraseIdx j
          shots := s.shots.eraseIdx i }
      else checkCollisionsInner s i shot j := by
  rw [checkCollisionsInner]
  simp only [he]
  split
  · simp [handleCollision_shots, handleCollision_enemies]
  · rfl

/-- What the inner loop does: either no enemy below the counter overlaps the
shot and the state is unchanged, or the overlapping enemy of highest index is
scored and spliced out together with the shot. -/
theorem checkCollisionsInner_cases (s : State) (i : Nat) (shot : Shot) (j : Nat)
    (hj : j ≤ s.enemies.length) :
    (checkCollisionsInner s i shot j = s ∧
      ∀ k e, k < j → s.enemies[k]? = some e →
        isColliding (some shot.element) (some e.element) = false) ∨
    (∃ k e, k < j ∧ s.enemies[k]? = some e ∧
      isColliding (some shot.element) (some e.element) = true ∧
      (∀ m e2, k < m → m < j → s.enemies[m]? = some e2 →
        isColliding (some shot.element) (some e2.element) = false) ∧
      checkCollisionsInner s i shot j =
        { handleCollision s shot e with
          enemies := s.enemies.eraseIdx k
          shots := s.shots.eraseIdx i }) := by
  induction j with
  | zero =>
    left
    exact ⟨rfl, fun k e hk => absurd hk (Nat.not_lt_zero k)⟩
  | succ j ih =>
    have hlt : j < s.enemies.length := hj
    have he : s.enemies[j]? = some (s.enemies[j]) := List.getElem?_eq_getElem hlt
    rw [checkCollisionsInner_succ s i shot j _ he]
    by_cases hc : isColliding (some shot.element) (some (s.enemies[j]).element) = true
    · right
      refine ⟨j, s.enemies[j], Nat.lt_succ_self j, he, hc, ?_, ?_⟩
      · intro m e2 h1 h2 _
        omega
      · simp [hc]
    · have hc2 : isColliding (some shot.element) (some (s.enemies[j]).element) = false := by
        simpa using hc
      rcases ih (Nat.le_of_lt hlt) with ⟨h1, h2⟩ | ⟨k, e, hk, hek, hhit, hfirst, hres⟩
      · left
        refine ⟨by simp [hc2, h1], ?_⟩
        intro k e hk hek
        rcases Nat.lt_succ_iff_lt_or_eq.mp hk with hk2 | hk2
        · exact h2 k e hk2 hek
        · subst hk2
          rw [he] at hek
          cases hek
          exact hc2
      · right
        refine ⟨k, e, Nat.lt_succ_of_lt hk, hek, hhit, ?_, by simp [hc2, hres]⟩
        intro m e2 h1 h2 hm
        rcases Nat.lt_succ_iff_lt_or_eq.mp h2 with h3 | h3
        · exact hfirst m e2 h1 h3 hm
        · subst h3
          rw [he] at hm
          cases hm
          exact hc2

theorem checkCollisionsOuter_succ (s : State) (i : Nat) (shot : Shot)
    (hs : s.shots[i]? = some shot) :
    checkCollisionsOuter s (i + 1) =
      checkCollisionsOuter (checkCollisionsInner s i shot s.enemies.length) i := by
  rw [checkCollisionsOuter]
  simp only [hs]

theorem checkCollisionsOuter_none (s : State) (i : Nat) (hs : s.shots[i]? = none) :
    checkCollisionsOuter s (i + 1) = s := by
  rw [checkCollisionsOuter]
  simp only [hs]

theorem drop_eraseIdx_self {α : Type} (l : List α) (i : Nat) :
    (l.eraseIdx i).drop i = l.drop (i + 1) := by
  induction l generalizing i with
  | nil => simp
  | cons a t ih =>
    cases i with
    | zero => simp
    | succ i => simpa using ih i

/-- One run of the inner loop removes no shot and no enemy, or exactly one of
each, and counts exactly one answer in the second case. -/
theorem checkCollisionsInner_removes (s : State) (i : Nat) (shot : Shot)
    (hs : s.shots[i]? = some shot) :
    ∃ n : Nat,
      (checkCollisionsInner s i shot s.enemies.length).shots.Sublist s.shots ∧
      (checkCollisionsInner s i shot s.enemies.length).enemies.Sublist s.enemies ∧
      s.shots.length = (checkCollisionsInner s i shot s.enemies.length).shots.length + n ∧
      s.enemies.length = (checkCollisionsInner s i shot s.enemies.length).enemies.length + n ∧
      (checkCollisionsInner s i shot s.enemies.length).correctAnswers +
          (checkCollisionsInner s i shot s.enemies.length).wrongAnswers =
        s.correctAnswers + s.wrongAnswers + n := by
  have hi : i < s.shots.length := (List.getElem?_eq_some.mp hs).1
  rcases checkCollisionsInner_cases s i shot s.enemies.length (Nat.le_refl _) with
    ⟨h1, _⟩ | ⟨k, e, hk, _, _, _, hres⟩
  · rw [h1]
    exact ⟨0, List.Sublist.refl _, List.Sublist.refl _, rfl, rfl, rfl⟩
  · rw [hres]
    refine ⟨1, List.eraseIdx_sublist _ _, List.eraseIdx_sublist _ _, ?_, ?_, ?_⟩
    · show s.shots.length = (s.shots.eraseIdx i).length + 1
      rw [List.length_eraseIdx_of_lt hi]
      omega
    · show s.enemies.length = (s.enemies.eraseIdx k).length + 1
      rw [List.length_eraseIdx_of_lt hk]
      omega
    · exact handleCollision_answers s shot e

theorem checkCollisionsOuter_removes (i : Nat) :
    ∀ s : State, ∃ n : Nat,
      (checkCollisionsOuter s i).shots.Sublist s.shots ∧
      (checkCollisionsOuter s i).enemies.Sublist s.enemies ∧
      s.shots.length = (checkCollisionsOuter s i).shots.length + n ∧
      s.enemies.length = (checkCollisionsOuter s i).enemies.length + n ∧
      (checkCollisionsOuter s i).correctAnswers + (checkCollisionsOuter s i).wrongAnswers =
        s.correctAnswers + s.wrongAnswers + n := by
  induction i with
  | zero =>
    intro s
    exact ⟨0, List.Sublist.refl _, List.Sublist.refl _, rfl, rfl, rfl⟩
  | succ i ih =>
    intro s
    cases hs : s.shots[i]? with
    | none =>
      rw [checkCollisionsOuter_none s i hs]
      exact ⟨0, List.Sublist.refl _, List.Sublist.refl _, rfl, rfl, rfl⟩
    | some shot =>
      rw [checkCollisionsOuter_succ s i shot hs]
      obtain ⟨n1, a1, a2, a3, a4, a5⟩ := checkCollisionsInner_removes s i shot hs
      obtain ⟨n2, b1, b2, b3, b4, b5⟩ := ih (checkCollisionsInner s i shot s.enemies.length)
      refine ⟨n1 + n2, b1.trans a1, b2.trans a2, ?_, ?_, ?_⟩
      · omega
      · omega
      · omega

theorem checkCollisionsOuter_clean (i : Nat) :
    ∀ s : State, i ≤ s.shots.length →
      (∀ sh ∈ s.shots.drop i, ∀ e ∈ s.enemies,
        isColliding (some sh.element) (some e.element) = false) →
      ∀ sh ∈ (checkCollisionsOuter s i).shots, ∀ e ∈ (checkCollisionsOuter s i).enemies,
        isColliding (some sh.element) (some e.element) = false := by
  induction i with
  | zero =>
    intro s _ h
    simpa [checkCollisionsOuter] using h
  | succ i ih =>
    intro s hi h
    have hlt : i < s.shots.length := hi
    have hs : s.shots[i]? = some (s.shots[i]) := List.getElem?_eq_getElem hlt
    rw [checkCollisionsOuter_succ s i _ hs]
    rcases checkCollisionsInner_cases s i (s.shots[i]) s.enemies.length (Nat.le_refl _) with
      ⟨h1, h2⟩ | ⟨k, e, hk, _, _, _, hres⟩
    · rw [h1]
      apply ih s (Nat.le_of_lt hlt)
      intro sh hsh e he
      rw [List.drop_eq_getElem_cons hlt] at hsh
      rcases List.mem_cons.mp hsh with heq | hmem
      · obtain ⟨k, hk⟩ := List.mem_iff_getElem?.mp he
        rw [heq]
        exact h2 k e (List.getElem?_eq_some.mp hk).1 hk
      · exact h sh hmem e he
    · rw [hres]
      apply ih
      · show i ≤ (s.shots.eraseIdx i).length
        rw [List.length_eraseIdx_of_lt hlt]
        omega
      · intro sh hsh e2 he2
        have hsh2 : sh ∈ s.shots.drop (i + 1) := by
          have : sh ∈ (s.shots.eraseIdx i).drop i := hsh
          rwa [drop_eraseIdx_self] at this
        have he3 : e2 ∈ s.enemies := List.mem_of_mem_eraseIdx he2
        exact h sh hsh2 e2 he3

/-- C4: one `checkCollisions` pass removes exactly as many shots as enemies,
and that number is the number of answers counted during the pass; what is left
of either list is what was there before, in the same order.  So a shot is
resolved against at most one enemy and an enemy by at most one shot. -/
theorem checkCollisions_removes_pairs (s : State) :
    ∃ n : Nat,
      (checkCollisions s).shots.Sublist s.shots ∧
      (checkCollisions s).enemies.Sublist s.enemies ∧
      s.shots.length = (checkCollisions s).shots.length + n ∧
      s.enemies.length = (checkCollisions s).enemies.length + n ∧
      (checkCollisions s).correctAnswers + (checkCollisions s).wrongAnswers =
        s.correctAnswers + s.wrongAnswers + n :=
  checkCollisionsOuter_removes s.shots.length s

/-- C5: after a `checkCollisions` pass no shot left in `shots` overlaps an
enemy left in `enemies`. -/
theorem checkCollisions_no_overlap_left (s : State) :
    ∀ sh ∈ (checkCollisions s).shots, ∀ e ∈ (checkCollisions s).enemies,
      isColliding (some sh.element) (some e.element) = false := by
  apply checkCollisionsOuter_clean s.shots.length s (Nat.le_refl _)
  intro sh hsh
  simp at hsh

theorem checkCollisions_no_overlap_left_witness :
    (⟨⟨100, 100, 8, 15⟩, "ts", 100, 100⟩ : Shot) ∈ (checkCollisions sampleTwoShots).shots ∧
    (⟨⟨300, 0, 45, 40⟩, "dry-eye", "lubricant", 300, 0⟩ : Enemy) ∈
      (checkCollisions sampleTwoShots).enemies ∧
    isColliding (some (⟨⟨100, 100, 8, 15⟩, "ts", 100, 100⟩ : Shot).element)
      (some (⟨⟨300, 0, 45, 40⟩, "dry-eye", "lubricant", 300, 0⟩ : Enemy).element) = false :=
  ⟨by decide!, by decide!,
    checkCollisions_no_overlap_left sampleTwoShots _ (by decide!) _ (by decide!)⟩

theorem checkCollisionsInner_no_hit (s : State) (i : Nat) (shot : Shot)
    (h : ∀ e ∈ s.enemies, isColliding (some shot.element) (some e.element) = false) :
    checkCollisionsInner s i shot s.enemies.length = s := by
  rcases checkCollisionsInner_cases s i shot s.enemies.length (Nat.le_refl _) with
    ⟨h1, _⟩ | ⟨k, e, _, hek, hhit, _, _⟩
  · exact h1
  · have := h e (List.mem_iff_getElem?.mpr ⟨k, hek⟩)
    rw [hhit] at this
    cases this

/-- The outer loop leaves the state alone over a stretch of indices whose
shots overlap no enemy. -/
theorem checkCollisionsOuter_skip (s : State) (i d : Nat) (hlen : i + d ≤ s.shots.length)
    (h : ∀ k sh, i ≤ k → k < i + d → s.shots[k]? = some sh →
      ∀ e ∈ s.enemies, isColliding (some sh.element) (some e.element) = false) :
    checkCollisionsOuter s (i + d) = checkCollisionsOuter s i := by
  induction d with
  | zero => rfl
  | succ d ih =>
    have hlt : i + d < s.shots.length := by omega
    have hs : s.shots[i + d]? = some (s.shots[i + d]) := List.getElem?_eq_getElem hlt
    show checkCollisionsOuter s (i + d + 1) = _
    rw [checkCollisionsOuter_succ s (i + d) _ hs,
      checkCollisionsInner_no_hit s (i + d) _ (h (i + d) _ (by omega) (by omega) hs)]
    exact ih (by omega) (fun k sh h1 h2 => h k sh h1 (by omega))

/-- When the shot at index `i` is the only shot of a pass that overlaps an
enemy, the whole pass removes and scores that shot and the overlapping enemy
of highest index, and nothing else. -/
theorem checkCollisions_sole_overlap (s : State) (i : Nat) (shot : Shot) (j : Nat)
    (enemy : Enemy) (hi : s.shots[i]? = some shot)
    (hothers : ∀ sh ∈ s.shots.eraseIdx i, ∀ e ∈ s.enemies,
      isColliding (some sh.element) (some e.element) = false)
    (hj : s.enemies[j]? = some enemy)
    (hit : isColliding (some shot.element) (some enemy.element) = true)
    (hfirst : ∀ e ∈ s.enemies.drop (j + 1),
      isColliding (some shot.element) (some e.element) = false) :
    checkCollisions s =
      { handleCollision s shot enemy with
        enemies := s.enemies.eraseIdx j
        shots := s.shots.eraseIdx i } ∧
    (∀ k e, k ≠ j → s.enemies[k]? = some e → e ∈ (checkCollisions s).enemies) ∧
    (checkCollisions s).enemies.length + 1 = s.enemies.length ∧
    (checkCollisions s).correctAnswers + (checkCollisions s).wrongAnswers =
      s.correctAnswers + s.wrongAnswers + 1 := by
  have hilt : i < s.shots.length := (List.getElem?_eq_some.mp hi).1
  have hjlt : j < s.enemies.length := (List.getElem?_eq_some.mp hj).1
  have hafter : ∀ m e2, j < m → s.enemies[m]? = some e2 →
      isColliding (some shot.element) (some e2.element) = false := by
    intro m e2 hm he2
    apply hfirst
    rw [List.mem_iff_getElem?]
    refine ⟨m - (j + 1), ?_⟩
    rw [List.getElem?_drop]
    have : j + 1 + (m - (j + 1)) = m := by omega
    rw [this]
    exact he2
  have hother : ∀ k sh, k ≠ i → s.shots[k]? = some sh →
      ∀ e ∈ s.enemies, isColliding (some sh.element) (some e.element) = false := by
    intro k sh hk hsh
    exact hothers sh (List.mem_eraseIdx_iff_getElem?.mpr ⟨k, hk, hsh⟩)
  have hinner : checkCollisionsInner s i shot s.enemies.length =
      { handleCollision s shot enemy with
        enemies := s.enemies.eraseIdx j
        shots := s.shots.eraseIdx i } := by
    rcases checkCollisionsInner_cases s i shot s.enemies.length (Nat.le_refl _) with
      ⟨_, h2⟩ | ⟨k, e, hk, hek, hhit, hbetween, hres⟩
    · have := h2 j enemy hjlt hj
      rw [hit] at this
      cases this
    · have hkj : k = j := by
        rcases Nat.lt_trichotomy k j with h | h | h
        · have := hbetween j enemy h hjlt hj
          rw [hit] at this
          cases this
        · exact h
        · have := hafter k e h hek
          rw [hhit] at this
          cases this
      subst hkj
      rw [hj] at hek
      cases hek
      exact hres
  have hres : checkCollisions s =
      { handleCollision s shot enemy with
        enemies := s.enemies.eraseIdx j
        shots := s.shots.eraseIdx i } := by
    unfold checkCollisions
    have hsplit : s.shots.length = (i + 1) + (s.shots.length - (i + 1)) := by omega
    rw [hsplit, checkCollisionsOuter_skip s (i + 1) (s.shots.length - (i + 1)) (by omega)
      (fun k sh h1 _ hsh => hother k sh (by omega) hsh),
      checkCollisionsOuter_succ s i shot hi, hinner]
    have hzero := checkCollisionsOuter_skip
      ({ handleCollision s shot enemy with
          enemies := s.enemies.eraseIdx j
          shots := s.shots.eraseIdx i } : State) 0 i
      (by
        show 0 + i ≤ (s.shots.eraseIdx i).length
        rw [List.length_eraseIdx_of_lt hilt]
        omega)
      (by
        intro k sh _ hk hsh e he
        have hk2 : k < i := by omega
        have hsh2 : s.shots[k]? = some sh := by
          have : (s.shots.eraseIdx i)[k]? = some sh := hsh
          rwa [List.getElem?_eraseIdx_of_lt _ _ _ hk2] at this
        have he2 : e ∈ s.enemies := by
          have : e ∈ s.enemies.eraseIdx j := he
          exact List.mem_of_mem_eraseIdx this
        exact hother k sh (by omega) hsh2 e he2)
    rw [Nat.zero_add] at hzero
    rw [hzero]
    rfl
  refine ⟨hres, ?_, ?_, ?_⟩
  · intro k e hk he
    rw [hres]
    show e ∈ s.enemies.eraseIdx j
    rw [List.mem_eraseIdx_iff_getElem?]
    exact ⟨k, hk, he⟩
  · rw [hres]
    show (s.enemies.eraseIdx j).length + 1 = s.enemies.length
    rw [List.length_eraseIdx_of_lt hjlt]
    omega
  · rw [hres]
    exact handleCollision_answers s shot enemy

/-- The visit of one shot by `checkCollisions`: when the shot overlaps the
enemy at index `j` and no enemy of higher index, the visit scores that enemy
and splices it and the shot out. -/
theorem checkCollisionsInner_first_overlap (s : State) (i : Nat) (shot : Shot) (j : Nat)
    (enemy : Enemy) (hj : s.enemies[j]? = some enemy)
    (hit : isColliding (some shot.element) (some enemy.element) = true)
    (hfirst : ∀ e ∈ s.enemies.drop (j + 1),
      isColliding (some shot.element) (some e.element) = false) :
    checkCollisionsInner s i shot s.enemies.length =
      { handleCollision s shot enemy with
        enemies := s.enemies.eraseIdx j
        shots := s.shots.eraseIdx i } := by
  have hjlt : j < s.enemies.length := (List.getElem?_eq_some.mp hj).1
  have hafter : ∀ m e2, j < m → s.enemies[m]? = some e2 →
      isColliding (some shot.element) (some e2.element) = false := by
    intro m e2 hm he2
    apply hfirst
    rw [List.mem_iff_getElem?]
    refine ⟨m - (j + 1), ?_⟩
    rw [List.getElem?_drop]
    have : j + 1 + (m - (j + 1)) = m := by omega
    rw [this]
    exact he2
  rcases checkCollisionsInner_cases s i shot s.enemies.length (Nat.le_refl _) with
    ⟨_, h2⟩ | ⟨k, e, hk, hek, hhit, hbetween, hres⟩
  · have := h2 j enemy hjlt hj
    rw [hit] at this
    cases this
  · have hkj : k = j := by
      rcases Nat.lt_trichotomy k j with h | h | h
      · have := hbetween j enemy h hjlt hj
        rw [hit] at this
        cases this
      · exact h
      · have := hafter k e h hek
        rw [hhit] at this
        cases this
    subst hkj
    rw [hj] at hek
    cases hek
    exact hres

/-- C6, as stated, fails when a second shot overlaps the same enemies: the
shot at index 1 overlaps both enemies and takes the one at index 1, the first
it meets; the shot at index 0, visited next, takes the enemy at index 0, so
the other enemy the first shot overlapped is not in `enemies` after the
pass. -/
theorem checkCollisions_double_overlap_counterexample :
    sampleDoubleOverlap.shots[1]? = some ⟨⟨20, 30, 8, 15⟩, "lubricant", 20, 30⟩ ∧
    isColliding (some (⟨⟨20, 30, 8, 15⟩, "lubricant", 20, 30⟩ : Shot).element)
      (some (⟨⟨25, 20, 45, 40⟩, "glaucoma", "ts", 25, 20⟩ : Enemy).element) = true ∧
    isColliding (some (⟨⟨20, 30, 8, 15⟩, "lubricant", 20, 30⟩ : Shot).element)
      (some (⟨⟨0, 0, 45, 40⟩, "dry-eye", "lubricant", 0, 0⟩ : Enemy).element) = true ∧
    sampleDoubleOverlap.enemies[0]? = some ⟨⟨0, 0, 45, 40⟩, "dry-eye", "lubricant", 0, 0⟩ ∧
    (⟨⟨0, 0, 45, 40⟩, "dry-eye", "lubricant", 0, 0⟩ : Enemy) ∉
      (checkCollisions sampleDoubleOverlap).enemies ∧
    (checkCollisions sampleDoubleOverlap).enemies = [] := by
  refine ⟨by decide!, by decide!, by decide!, by decide!, by decide!, by decide!⟩

/-- C6, amended: when `checkCollisions` visits a shot that overlaps several
enemies, the visit removes and scores, together with the shot, only the
overlapping enemy of highest index, the first one the traversal meets; every
other enemy, overlapping or not, is still in `enemies` after the visit, and
the pass goes on from there with the shots of lower index, which may take some
of them.  When no other shot of the pass overlaps an enemy, the state after
the visit is the state after the pass, so every other enemy is still in
`enemies` after the pass. -/
theorem checkCollisions_first_overlap (s : State) (i : Nat) (shot : Shot) (j : Nat)
    (enemy : Enemy) (hi : s.shots[i]? = some shot) (hj : s.enemies[j]? = some enemy)
    (hit : isColliding (some shot.element) (some enemy.element) = true)
    (hfirst : ∀ e ∈ s.enemies.drop (j + 1),
      isColliding (some shot.element) (some e.element) = false) :
    checkCollisionsInner s i shot s.enemies.length =
      { handleCollision s shot enemy with
        enemies := s.enemies.eraseIdx j
        shots := s.shots.eraseIdx i } ∧
    (∀ k e, k ≠ j → s.enemies[k]? = some e →
      e ∈ (checkCollisionsInner s i shot s.enemies.length).enemies) ∧
    (checkCollisionsInner s i shot s.enemies.length).enemies.length + 1 = s.enemies.length ∧
    (checkCollisionsInner s i shot s.enemies.length).correctAnswers +
        (checkCollisionsInner s i shot s.enemies.length).wrongAnswers =
      s.correctAnswers + s.wrongAnswers + 1 ∧
    checkCollisionsOuter s (i + 1) =
      checkCollisionsOuter (checkCollisionsInner s i shot s.enemies.length) i ∧
    ((∀ sh ∈ s.shots.eraseIdx i, ∀ e ∈ s.enemies,
        isColliding (some sh.element) (some e.element) = false) →
      checkCollisions s = checkCollisionsInner s i shot s.enemies.length ∧
      (∀ k e, k ≠ j → s.enemies[k]? = some e → e ∈ (checkCollisions s).enemies) ∧
      (checkCollisions s).enemies.length + 1 = s.enemies.length ∧
      (checkCollisions s).correctAnswers + (checkCollisions s).wrongAnswers =
        s.correctAnswers + s.wrongAnswers + 1) := by
  have hjlt : j < s.enemies.length := (List.getElem?_eq_some.mp hj).1
  have hvisit := checkCollisionsInner_first_overlap s i shot j enemy hj hit hfirst
  refine ⟨hvisit, ?_, ?_, ?_, checkCollisionsOuter_succ s i shot hi, ?_⟩
  · intro k e hk he
    rw [hvisit]
    show e ∈ s.enemies.eraseIdx j
    rw [List.mem_eraseIdx_iff_getElem?]
    exact ⟨k, hk, he⟩
  · rw [hvisit]
    show (s.enemies.eraseIdx j).length + 1 = s.enemies.length
    rw [List.length_eraseIdx_of_lt hjlt]
    omega
  · rw [hvisit]
    exact handleCollision_answers s shot enemy
  · intro hothers
    obtain ⟨p1, p2, p3, p4⟩ :=
      checkCollisions_sole_overlap s i shot j enemy hi hothers hj hit hfirst
    exact ⟨by rw [p1, hvisit], p2, p3, p4⟩

theorem checkCollisions_first_overlap_witness :
    isColliding (some (⟨⟨20, 30, 8, 15⟩, "lubricant", 20, 30⟩ : Shot).element)
      (some (⟨⟨0, 0, 45, 40⟩, "dry-eye", "lubricant", 0, 0⟩ : Enemy).element) = true ∧
    (⟨⟨0, 0, 45, 40⟩, "dry-eye", "lubricant", 0, 0⟩ : Enemy) ∈
      (checkCollisionsInner sampleMultiOverlap 1 ⟨⟨20, 30, 8, 15⟩, "lubricant", 20, 30⟩
        sampleMultiOverlap.enemies.length).enemies ∧
    (⟨⟨0, 0, 45, 40⟩, "dry-eye", "lubricant", 0, 0⟩ : Enemy) ∈
      (checkCollisions sampleMultiOverlap).enemies ∧
    (checkCollisions sampleMultiOverlap).enemies.length + 1 =
      sampleMultiOverlap.enemies.length := by
  obtain ⟨_, h2, _, _, _, h6⟩ :=
    checkCollisions_first_overlap sampleMultiOverlap 1 ⟨⟨20, 30, 8, 15⟩, "lubricant", 20, 30⟩ 1
      ⟨⟨25, 20, 45, 40⟩, "glaucoma", "ts", 25, 20⟩ rfl rfl (by decide!) (by decide!)
  obtain ⟨_, q2, q3, _⟩ := h6 (by decide!)
  exact ⟨by decide!, h2 0 _ (by decide) rfl, q2 0 _ (by decide) rfl, q3⟩

/-! ## Round life cycle: theorems -/

theorem endGame_of_isGameOver (s : State) (h : s.isGameOver = true) : endGame s = s := by
  simp [endGame, h]

theorem endGame_isGameOver (s : State) : (endGame s).isGameOver = true := by
  unfold endGame
  by_cases h : s.isGameOver = true
  · simp [h]
  · simp [h]

/-- C7: `endGame` is idempotent: calling it twice gives the same state, and so
the same reported score, counters and badge, as calling it once; a call made
when the game is already over changes nothing. -/
theorem endGame_idempotent (s : State) :
    endGame (endGame s) = endGame s ∧
    (endGame (endGame s)).endDisplay = (endGame s).endDisplay ∧
    endGame { s with isGameOver := true } = { s with isGameOver := true } := by
  have h : endGame (endGame s) = endGame s :=
    endGame_of_isGameOver (endGame s) (endGame_isGameOver s)
  exact ⟨h, by rw [h], endGame_of_isGameOver _ rfl⟩

theorem updateTimer_eq (s : State) :
    updateTimer s =
      if updateTimerCallsEndGame s then endGame { s with timeLeft := s.timeLeft - 1 }
      else if s.isGameOver then s
      else { s with timeLeft := s.timeLeft - 1 } := by
  unfold updateTimer updateTimerCallsEndGame
  by_cases h : s.isGameOver = true
  · simp [h]
  · by_cases h2 : s.timeLeft - 1 ≤ 0
    · simp [h, h2]
    · simp [h, h2]

theorem updateTimer_running (t : State) (h : t.isGameOver = false) (h2 : 0 < t.timeLeft - 1) :
    updateTimer t = { t with timeLeft := t.timeLeft - 1 } := by
  unfold updateTimer
  rw [if_neg (by simp [h])]
  show (if t.timeLeft - 1 ≤ 0 then _ else _) = _
  rw [if_neg (by omega)]

theorem updateTimer_last (t : State) (h : t.isGameOver = false) (h2 : t.timeLeft - 1 ≤ 0) :
    updateTimer t = endGame { t with timeLeft := t.timeLeft - 1 } := by
  unfold updateTimer
  rw [if_neg (by simp [h])]
  show (if t.timeLeft - 1 ≤ 0 then _ else _) = _
  rw [if_pos h2]

theorem updateTimer_over (t : State) (h : t.isGameOver = true) : updateTimer t = t := by
  unfold updateTimer
  rw [if_pos h]

theorem ticks_startGame (s : State) (k : Nat) :
    ticks (startGame s) k =
      if k < 180 then { startGame s with timeLeft := 180 - (k : Int) }
      else endGame { startGame s with timeLeft := 0 } := by
  induction k with
  | zero => simp [ticks, startGame]
  | succ k ih =>
    rw [ticks, ih]
    by_cases h1 : k + 1 < 180
    · have h2 : k < 180 := by omega
      simp only [h1, h2, if_true]
      have h4 : (180 : Int) - (k : Int) - 1 = 180 - ((k + 1 : Nat) : Int) := by omega
      rw [updateTimer_running _ rfl (by show (0 : Int) < 180 - (k : Int) - 1; omega)]
      show ({ startGame s with timeLeft := 180 - (k : Int) - 1 } : State) = _
      rw [h4]
    · by_cases h2 : k < 180
      · have hk : k = 179 := by omega
        subst hk
        simp only [h1, h2, if_true, if_false]
        rw [updateTimer_last _ rfl
          (by show (180 : Int) - ((179 : Nat) : Int) - 1 ≤ 0; decide)]
        rfl
      · simp only [h1, h2, if_false]
        rw [updateTimer_over _ (endGame_isGameOver _)]

/-- C8: from the state `startGame` produces, after `k` countdown ticks
`timeLeft` is 180 minus `k` as long as `k` is at most 180 and stays 0 from
then on; the round is running after fewer than 180 ticks and over from tick
180 on; and the only tick that calls `endGame` is tick 180, the one on which
`timeLeft` reaches 0. -/
theorem countdown (s : State) (k : Nat) :
    (ticks (startGame s) k =
      if k < 180 then { startGame s with timeLeft := 180 - (k : Int) }
      else endGame { startGame s with timeLeft := 0 }) ∧
    (ticks (startGame s) k).timeLeft = 180 - ((min k 180 : Nat) : Int) ∧
    (ticks (startGame s) k).isGameOver = decide (180 ≤ k) ∧
    (ticks (startGame s) k).timerInterval = decide (k < 180) ∧
    updateTimerCallsEndGame (ticks (startGame s) k) = decide (k + 1 = 180) := by
  refine ⟨ticks_startGame s k, ?_, ?_, ?_, ?_⟩
  · rw [ticks_startGame]
    by_cases h : k < 180
    · have hm : min k 180 = k := by omega
      simp [h, hm]
    · have hm : min k 180 = 180 := by omega
      simp [h, hm, endGame, startGame]
  · rw [ticks_startGame]
    by_cases h : k < 180
    · have h2 : ¬ (180 ≤ k) := by omega
      simp [h, h2, startGame]
    · have h2 : 180 ≤ k := by omega
      simp [h, h2, endGame_isGameOver]
  · rw [ticks_startGame]
    by_cases h : k < 180
    · simp [h, startGame]
    · simp [h, endGame, startGame]
  · rw [ticks_startGame]
    by_cases h : k < 180
    · by_cases h2 : k + 1 = 180
      · have hk : k = 179 := by omega
        subst hk
        simp [updateTimerCallsEndGame, startGame]
      · have h3 : ¬ ((180 : Int) - (k : Int) - 1 ≤ 0) := by omega
        simp [h, h2, updateTimerCallsEndGame, startGame, h3]
    · have h2 : ¬ (k + 1 = 180) := by omega
      simp [h, h2, updateTimerCallsEndGame, endGame_isGameOver]

/-! ## Frame of the handlers on the countdown -/

theorem handleCollision_frame (s : State) (shot : Shot) (enemy : Enemy) :
    (handleCollision s shot enemy).timeLeft = s.timeLeft ∧
    (handleCollision s shot enemy).isGameOver = s.isGameOver := by
  unfold handleCollision
  split <;> simp

theorem checkCollisionsInner_frame (s : State) (i : Nat) (shot : Shot) (j : Nat) :
    (checkCollisionsInner s i shot j).timeLeft = s.timeLeft ∧
    (checkCollisionsInner s i shot j).isGameOver = s.isGameOver := by
  induction j with
  | zero => exact ⟨rfl, rfl⟩
  | succ j ih =>
    cases he : s.enemies[j]? with
    | none =>
      rw [checkCollisionsInner]
      simp [he]
    | some enemy =>
      rw [checkCollisionsInner_succ s i shot j enemy he]
      split
      · exact handleCollision_frame s shot enemy
      · exact ih

theorem checkCollisionsOuter_frame (i : Nat) :
    ∀ s : State, (checkCollisionsOuter s i).timeLeft = s.timeLeft ∧
      (checkCollisionsOuter s i).isGameOver = s.isGameOver := by
  induction i with
  | zero => intro s; exact ⟨rfl, rfl⟩
  | succ i ih =>
    intro s
    cases hs : s.shots[i]? with
    | none =>
      rw [checkCollisionsOuter_none s i hs]
      exact ⟨rfl, rfl⟩
    | some shot =>
      rw [checkCollisionsOuter_succ s i shot hs]
      obtain ⟨a1, a2⟩ := ih (checkCollisionsInner s i shot s.enemies.length)
      obtain ⟨b1, b2⟩ := checkCollisionsInner_frame s i shot s.enemies.length
      exact ⟨a1.trans b1, a2.trans b2⟩

theorem gameLoop_frame (s : State) (gameH : Rat) :
    (gameLoop s gameH).timeLeft = s.timeLeft ∧
    (gameLoop s gameH).isGameOver = s.isGameOver := by
  unfold gameLoop
  split
  · exact ⟨rfl, rfl⟩
  · exact checkCollisionsOuter_frame _ (moveEnemies (moveShots s) gameH)

theorem spawnEnemy_frame (s : State) (rType rX gameW enemyW enemyH : Rat) :
    (spawnEnemy s rType rX gameW enemyW enemyH).timeLeft = s.timeLeft ∧
    (spawnEnemy s rType rX gameW enemyW enemyH).isGameOver = s.isGameOver := by
  unfold spawnEnemy
  split
  · exact ⟨rfl, rfl⟩
  · dsimp only
    split
    · exact ⟨rfl, rfl⟩
    · split
      · exact ⟨rfl, rfl⟩
      · split <;> exact ⟨rfl, rfl⟩

theorem shoot_frame (s : State) (offsetLeft offsetWidth offsetTop : Rat) :
    (shoot s offsetLeft offsetWidth offsetTop).timeLeft = s.timeLeft ∧
    (shoot s offsetLeft offsetWidth offsetTop).isGameOver = s.isGameOver := by
  unfold shoot
  split <;> exact ⟨rfl, rfl⟩

theorem movePlayer_frame (s : State) (direction : String) (gameW playerW : Rat) :
    (movePlayer s direction gameW playerW).timeLeft = s.timeLeft ∧
    (movePlayer s direction gameW playerW).isGameOver = s.isGameOver := by
  unfold movePlayer
  repeat' split
  all_goals exact ⟨rfl, rfl⟩

theorem selectShotByIndex_frame (s : State) (index : Int) (buttons : List String) :
    (selectShotByIndex s index buttons).timeLeft = s.timeLeft ∧
    (selectShotByIndex s index buttons).isGameOver = s.isGameOver := by
  unfold selectShotByIndex
  repeat' split
  all_goals exact ⟨rfl, rfl⟩

theorem updateTimer_timeLeft_inv (s : State)
    (h : 0 ≤ s.timeLeft ∧ s.timeLeft ≤ 180 ∧ (s.isGameOver = false → 1 ≤ s.timeLeft)) :
    0 ≤ (updateTimer s).timeLeft ∧ (updateTimer s).timeLeft ≤ 180 ∧
      ((updateTimer s).isGameOver = false → 1 ≤ (updateTimer s).timeLeft) := by
  obtain ⟨h0, h1, h2⟩ := h
  cases hover : s.isGameOver with
  | true =>
    rw [updateTimer_over s hover]
    exact ⟨h0, h1, h2⟩
  | false =>
    have h3 := h2 hover
    by_cases hlast : s.timeLeft - 1 ≤ 0
    · rw [updateTimer_last s hover hlast]
      have hover2 : ({ s with timeLeft := s.timeLeft - 1 } : State).isGameOver = false := hover
      have htl : (endGame { s with timeLeft := s.timeLeft - 1 }).timeLeft = s.timeLeft - 1 := by
        simp [endGame, hover]
      refine ⟨by rw [htl]; omega, by rw [htl]; omega, ?_⟩
      intro hcontra
      rw [endGame_isGameOver] at hcontra
      cases hcontra
    · rw [updateTimer_running s hover (by omega)]
      refine ⟨?_, ?_, ?_⟩
      · show 0 ≤ s.timeLeft - 1
        omega
      · show s.timeLeft - 1 ≤ 180
        omega
      · intro _
        show 1 ≤ s.timeLeft - 1
        omega

theorem step_timeLeft_inv (s : State) (c : Command)
    (h : 0 ≤ s.timeLeft ∧ s.timeLeft ≤ 180 ∧ (s.isGameOver = false → 1 ≤ s.timeLeft)) :
    0 ≤ (step s c).timeLeft ∧ (step s c).timeLeft ≤ 180 ∧
      ((step s c).isGameOver = false → 1 ≤ (step s c).timeLeft) := by
  cases c with
  | startGame =>
    have e : (step s Command.startGame).timeLeft = 180 := rfl
    rw [e]
    exact ⟨by decide, by decide, fun _ => by decide⟩
  | difficultyClick d =>
    have e : (step s (Command.difficultyClick d)).timeLeft = 180 := rfl
    rw [e]
    exact ⟨by decide, by decide, fun _ => by decide⟩
  | resetGame =>
    have e : (step s Command.resetGame).timeLeft = 180 := rfl
    rw [e]
    exact ⟨by decide, by decide, fun _ => by decide⟩
  | updateTimer => exact updateTimer_timeLeft_inv s h
  | gameLoop gameH =>
    obtain ⟨a, b⟩ := gameLoop_frame s gameH
    show 0 ≤ (gameLoop s gameH).timeLeft ∧ (gameLoop s gameH).timeLeft ≤ 180 ∧
      ((gameLoop s gameH).isGameOver = false → 1 ≤ (gameLoop s gameH).timeLeft)
    rw [a, b]
    exact h
  | spawnEnemy rType rX gameW enemyW enemyH =>
    obtain ⟨a, b⟩ := spawnEnemy_frame s rType rX gameW enemyW enemyH
    show 0 ≤ (spawnEnemy s rType rX gameW enemyW enemyH).timeLeft ∧
      (spawnEnemy s rType rX gameW enemyW enemyH).timeLeft ≤ 180 ∧
      ((spawnEnemy s rType rX gameW enemyW enemyH).isGameOver = false →
        1 ≤ (spawnEnemy s rType rX gameW enemyW enemyH).timeLeft)
    rw [a, b]
    exact h
  | shoot offsetLeft offsetWidth offsetTop =>
    obtain ⟨a, b⟩ := shoot_frame s offsetLeft offsetWidth offsetTop
    show 0 ≤ (shoot s offsetLeft offsetWidth offsetTop).timeLeft ∧
      (shoot s offsetLeft offsetWidth offsetTop).timeLeft ≤ 180 ∧
      ((shoot s offsetLeft offsetWidth offsetTop).isGameOver = false →
        1 ≤ (shoot s offsetLeft offsetWidth offsetTop).timeLeft)
    rw [a, b]
    exact h
  | movePlayer direction gameW playerW =>
    obtain ⟨a, b⟩ := movePlayer_frame s direction gameW playerW
    show 0 ≤ (movePlayer s direction gameW playerW).timeLeft ∧
      (movePlayer s direction gameW playerW).timeLeft ≤ 180 ∧
      ((movePlayer s direction gameW playerW).isGameOver = false →
        1 ≤ (movePlayer s direction gameW playerW).timeLeft)
    rw [a, b]
    exact h
  | shotButtonClick shotType => exact h
  | selectShotByIndex index buttons =>
    obtain ⟨a, b⟩ := selectShotByIndex_frame s index buttons
    show 0 ≤ (selectShotByIndex s index buttons).timeLeft ∧
      (selectShotByIndex s index buttons).timeLeft ≤ 180 ∧
      ((selectShotByIndex s index buttons).isGameOver = false →
        1 ≤ (selectShotByIndex s index buttons).timeLeft)
    rw [a, b]
    exact h

theorem run_timeLeft_inv (cs : List Command) :
    ∀ s : State,
      (0 ≤ s.timeLeft ∧ s.timeLeft ≤ 180 ∧ (s.isGameOver = false → 1 ≤ s.timeLeft)) →
      0 ≤ (run s cs).timeLeft ∧ (run s cs).timeLeft ≤ 180 ∧
        ((run s cs).isGameOver = false → 1 ≤ (run s cs).timeLeft) := by
  induction cs with
  | nil => intro s h; exact h
  | cons c rest ih =>
    intro s h
    exact ih (step s c) (step_timeLeft_inv s c h)

/-- C9: in every state reached from the initial state by any sequence of
handler runs (`startGame`, `resetGame`, `updateTimer`, `gameLoop`,
`spawnEnemy`, `shoot`, `movePlayer` and the selection handlers, each with any
reading of the page), `timeLeft` is at least 0 and at most 180. -/
theorem timeLeft_bounds (cs : List Command) :
    0 ≤ (run initialState cs).timeLeft ∧ (run initialState cs).timeLeft ≤ 180 := by
  obtain ⟨h0, h1, _⟩ :=
    run_timeLeft_inv cs initialState ⟨by decide, by decide, fun _ => by decide⟩
  exact ⟨h0, h1⟩

/-- C10: whatever the state before and whatever the difficulty chosen,
`startGame` leaves score 0, both counters 0, `timeLeft` 180, no shot, no
enemy, `isGameOver` false and the three intervals scheduled. -/
theorem startGame_resets (s : State) (d : Difficulty) :
    (startGame s).score = 0 ∧
    (startGame s).correctAnswers = 0 ∧
    (startGame s).wrongAnswers = 0 ∧
    (startGame s).timeLeft = 180 ∧
    (startGame s).shots = [] ∧
    (startGame s).enemies = [] ∧
    (startGame s).isGameOver = false ∧
    (startGame s).gameInterval = true ∧
    (startGame s).timerInterval = true ∧
    (startGame s).enemySpawnInterval = true ∧
    difficultyClick s d = { startGame s with difficulty := d } ∧
    (difficultyClick s d).score = 0 ∧
    (difficultyClick s d).correctAnswers = 0 ∧
    (difficultyClick s d).wrongAnswers = 0 ∧
    (difficultyClick s d).timeLeft = 180 ∧
    (difficultyClick s d).shots = [] ∧
    (difficultyClick s d).enemies = [] ∧
    (difficultyClick s d).isGameOver = false ∧
    (difficultyClick s d).gameInterval = true ∧
    (difficultyClick s d).timerInterval = true ∧
    (difficultyClick s d).enemySpawnInterval = true :=
  ⟨rfl, rfl, rfl, rfl, rfl, rfl, rfl, rfl, rfl, rfl, rfl, rfl, rfl, rfl, rfl, rfl, rfl, rfl,
    rfl, rfl, rfl⟩

/-! ## Phases: theorems -/

theorem phase_eq_of_control (a b : State) (h : control a = control b) : phase a = phase b := by
  simp only [control, Prod.mk.injEq] at h
  obtain ⟨h1, h2, h3, h4⟩ := h
  simp [phase, h1, h2, h3, h4]

theorem coherent_eq_of_control (a b : State) (h : control a = control b) :
    coherent a = coherent b := by
  simp only [control, Prod.mk.injEq] at h
  obtain ⟨h1, h2, h3, h4⟩ := h
  simp [coherent, h1, h2, h3, h4]

theorem handleCollision_control (s : State) (shot : Shot) (enemy : Enemy) :
    control (handleCollision s shot enemy) = control s := by
  unfold handleCollision
  split <;> rfl

theorem checkCollisionsInner_control (s : State) (i : Nat) (shot : Shot) (j : Nat) :
    control (checkCollisionsInner s i shot j) = control s := by
  induction j with
  | zero => rfl
  | succ j ih =>
    cases he : s.enemies[j]? with
    | none =>
      rw [checkCollisionsInner]
      simp [he]
    | some enemy =>
      rw [checkCollisionsInner_succ s i shot j enemy he]
      split
      · exact handleCollision_control s shot enemy
      · exact ih

theorem checkCollisionsOuter_control (i : Nat) :
    ∀ s : State, control (checkCollisionsOuter s i) = control s := by
  induction i with
  | zero => intro s; rfl
  | succ i ih =>
    intro s
    cases hs : s.shots[i]? with
    | none => rw [checkCollisionsOuter_none s i hs]
    | some shot =>
      rw [checkCollisionsOuter_succ s i shot hs, ih]
      exact checkCollisionsInner_control s i shot s.enemies.length

theorem gameLoop_control (s : State) (gameH : Rat) : control (gameLoop s gameH) = control s := by
  unfold gameLoop
  split
  · rfl
  · exact checkCollisionsOuter_control _ (moveEnemies (moveShots s) gameH)

theorem spawnEnemy_control (s : State) (rType rX gameW enemyW enemyH : Rat) :
    control (spawnEnemy s rType rX gameW enemyW enemyH) = control s := by
  unfold spawnEnemy
  split
  · rfl
  · dsimp only
    split
    · rfl
    · split
      · rfl
      · split <;> rfl

theorem shoot_control (s : State) (offsetLeft offsetWidth offsetTop : Rat) :
    control (shoot s offsetLeft offsetWidth offsetTop) = control s := by
  unfold shoot
  split <;> rfl

theorem movePlayer_control (s : State) (direction : String) (gameW playerW : Rat) :
    control (movePlayer s direction gameW playerW) = control s := by
  unfold movePlayer
  split
  · rfl
  · split <;> rfl

theorem selectShotByIndex_control (s : State) (index : Int) (buttons : List String) :
    control (selectShotByIndex s index buttons) = control s := by
  unfold selectShotByIndex
  split
  · rfl
  · split
    · split <;> rfl
    · rfl

theorem endGame_coherent (s : State) (h : coherent s = true) : coherent (endGame s) = true := by
  unfold endGame
  split
  · exact h
  · rfl

theorem updateTimer_coherent (s : State) (h : coherent s = true) :
    coherent (updateTimer s) = true := by
  unfold updateTimer
  split
  · exact h
  · dsimp only
    split
    · exact endGame_coherent _ h
    · exact h

theorem resetGame_coherent (s : State) (h : coherent s = true) :
    coherent (resetGame s) = true := by
  cases hover : s.isGameOver with
  | true =>
    have ht : s.timerInterval = false := by
      cases hti : s.timerInterval with
      | false => rfl
      | true => simp [coherent, hover, hti] at h
    have hg : s.gameInterval = false := by
      cases hgi : s.gameInterval with
      | false => rfl
      | true => simp [coherent, hover, ht, hgi] at h
    have he : s.enemySpawnInterval = false := by
      cases hei : s.enemySpawnInterval with
      | false => rfl
      | true => simp [coherent, hover, ht, hg, hei] at h
    simp [resetGame, coherent, hover, ht, hg, he]
  | false => simp [resetGame, coherent, hover]

theorem step_coherent (s : State) (c : Command) (h : coherent s = true) :
    coherent (step s c) = true := by
  cases c with
  | startGame => rfl
  | difficultyClick d => rfl
  | resetGame => exact resetGame_coherent s h
  | updateTimer => exact updateTimer_coherent s h
  | gameLoop gameH =>
    rw [← h]
    exact coherent_eq_of_control _ _ (gameLoop_control s gameH)
  | spawnEnemy rType rX gameW enemyW enemyH =>
    rw [← h]
    exact coherent_eq_of_control _ _ (spawnEnemy_control s rType rX gameW enemyW enemyH)
  | shoot offsetLeft offsetWidth offsetTop =>
    rw [← h]
    exact coherent_eq_of_control _ _ (shoot_control s offsetLeft offsetWidth offsetTop)
  | movePlayer direction gameW playerW =>
    rw [← h]
    exact coherent_eq_of_control _ _ (movePlayer_control s direction gameW playerW)
  | shotButtonClick shotType => exact h
  | selectShotByIndex index buttons =>
    rw [← h]
    exact coherent_eq_of_control _ _ (selectShotByIndex_control s index buttons)

theorem run_coherent (cs : List Command) :
    ∀ s : State, coherent s = true → coherent (run s cs) = true := by
  induction cs with
  | nil => intro s h; exact h
  | cons c rest ih =>
    intro s h
    exact ih (step s c) (step_coherent s c h)

theorem reachable_coherent (cs : List Command) : coherent (run initialState cs) = true :=
  run_coherent cs initialState rfl

theorem resetGame_of_coherent (s : State) (h : coherent s = true) :
    resetGame s =
      { s with
        gameInterval := false
        timerInterval := false
        enemySpawnInterval := false
        enemies := []
        shots := []
        score := 0
        timeLeft := 180
        correctAnswers := 0
        wrongAnswers := 0
        playerX := 50
        selectedShotType := "lubricant"
        isGameOver := false
        screen := Screen.start } := by
  cases hover : s.isGameOver with
  | true =>
    have ht : s.timerInterval = false := by
      cases hti : s.timerInterval with
      | false => rfl
      | true => simp [coherent, hover, hti] at h
    have hg : s.gameInterval = false := by
      cases hgi : s.gameInterval with
      | false => rfl
      | true => simp [coherent, hover, ht, hgi] at h
    have he : s.enemySpawnInterval = false := by
      cases hei : s.enemySpawnInterval with
      | false => rfl
      | true => simp [coherent, hover, ht, hg, hei] at h
    simp [resetGame, hover, ht, hg, he]
  | false => simp [resetGame, hover]

/-- C11: from every state reached from the initial state by any sequence of
handler runs, whatever its phase, `resetGame` yields phase Idle (the game not
over and no interval scheduled), no shot and no enemy, score 0, both counters
0, `timeLeft` 180 and the default shot type `lubricant`. -/
theorem resetGame_resets (cs : List Command) :
    phase (resetGame (run initialState cs)) = Phase.Idle ∧
    (resetGame (run initialState cs)).isGameOver = false ∧
    (resetGame (run initialState cs)).gameInterval = false ∧
    (resetGame (run initialState cs)).timerInterval = false ∧
    (resetGame (run initialState cs)).enemySpawnInterval = false ∧
    (resetGame (run initialState cs)).shots = [] ∧
    (resetGame (run initialState cs)).enemies = [] ∧
    (resetGame (run initialState cs)).score = 0 ∧
    (resetGame (run initialState cs)).correctAnswers = 0 ∧
    (resetGame (run initialState cs)).wrongAnswers = 0 ∧
    (resetGame (run initialState cs)).timeLeft = 180 ∧
    (resetGame (run initialState cs)).selectedShotType = "lubricant" := by
  rw [resetGame_of_coherent _ (reachable_coherent cs)]
  exact ⟨rfl, rfl, rfl, rfl, rfl, rfl, rfl, rfl, rfl, rfl, rfl, rfl⟩

/-- C12, as stated, fails: in the initial state, whose phase is Idle, and in
the Idle state `resetGame` leaves, `shoot` appends a shot. -/
theorem shoot_in_idle_counterexample :
    phase initialState = Phase.Idle ∧
    initialState.shots = [] ∧
    (shoot initialState 180 40 500).shots =
      [⟨⟨196, 485, 8, 15⟩, "lubricant", 196, 485⟩] ∧
    phase (resetGame (startGame initialState)) = Phase.Idle ∧
    (resetGame (startGame initialState)).shots = [] ∧
    (shoot (resetGame (startGame initialState)) 180 40 500).shots =
      [⟨⟨196, 485, 8, 15⟩, "lubricant", 196, 485⟩] := by
  refine ⟨by decide!, by decide!, by decide!, by decide!, by decide!, by decide!⟩

/-- C12, amended: `shoot` is ignored when the game is over, that is in phase
Ended, where it leaves the whole state unchanged; in every other state, the
Idle states included, it appends one shot of the selected type. -/
theorem shoot_ignored_when_over (s : State) (offsetLeft offsetWidth offsetTop : Rat) :
    (phase s = Phase.Ended ↔ s.isGameOver = true) ∧
    (if s.isGameOver = true then shoot s offsetLeft offsetWidth offsetTop = s
     else
      shoot s offsetLeft offsetWidth offsetTop =
        { s with
          shots := s.shots ++
            [⟨⟨offsetLeft + offsetWidth / 2 - 8 / 2, offsetTop - 15, 8, 15⟩, s.selectedShotType,
              offsetLeft + offsetWidth / 2 - 8 / 2, offsetTop - 15⟩] }) := by
  constructor
  · unfold phase
    cases s.isGameOver with
    | true => simp
    | false =>
      simp only [Bool.false_eq_true, if_false, iff_false]
      split <;> simp
  · cases hover : s.isGameOver with
    | true => simp [shoot, hover]
    | false => simp [shoot, hover]

theorem sampleEnded_eq :
    sampleEnded = endGame { startGame initialState with timeLeft := 0 } := by
  unfold sampleEnded
  rw [ticks_startGame]
  rfl

/-- C13, as stated, fails: `startGame` run in a Running round whose countdown
stands at 179 gives a fresh Running round with the countdown at 180, and run
in the Ended state after a full round it gives a Running round at once. -/
theorem startGame_restart_counterexample :
    phase (step (startGame initialState) Command.updateTimer) = Phase.Running ∧
    (step (startGame initialState) Command.updateTimer).timeLeft = 179 ∧
    phase (step (step (startGame initialState) Command.updateTimer) Command.startGame) =
      Phase.Running ∧
    (step (step (startGame initialState) Command.updateTimer) Command.startGame).timeLeft =
      180 ∧
    phase sampleEnded = Phase.Ended ∧
    phase (step sampleEnded Command.startGame) = Phase.Running := by
  refine ⟨by decide!, by decide!, by decide!, by decide!, ?_, by rfl⟩
  rw [sampleEnded_eq]
  decide!

theorem updateTimer_phase (s : State) (h : coherent s = true) (ht : s.timerInterval = true) :
    phase s = Phase.Running ∧
      (phase (updateTimer s) = Phase.Running ∨ phase (updateTimer s) = Phase.Ended) := by
  have hg : s.gameInterval = true := by
    cases hgi : s.gameInterval with
    | true => rfl
    | false => simp [coherent, ht, hgi] at h
  have he : s.enemySpawnInterval = true := by
    cases hei : s.enemySpawnInterval with
    | true => rfl
    | false => simp [coherent, ht, hg, hei] at h
  have hover : s.isGameOver = false := by
    cases ho : s.isGameOver with
    | false => rfl
    | true => simp [coherent, ht, hg, he, ho] at h
  have hrun : phase s = Phase.Running := by simp [phase, hover, hg, ht, he]
  refine ⟨hrun, ?_⟩
  by_cases hlast : s.timeLeft - 1 ≤ 0
  · right
    rw [updateTimer_last s hover hlast]
    simp [phase, endGame_isGameOver]
  · left
    rw [updateTimer_running s hover (by omega)]
    exact hrun

/-- C13, amended: from every state reached from the initial state, a handler
that can run changes the phase as follows.  `startGame`, also through a
difficulty button, leads to Running from every phase, Running and Ended
included; `resetGame` leads to Idle; a countdown tick runs only in Running and
leads to Running or to Ended; every other handler keeps the phase. -/
theorem phase_transitions (cs : List Command) (c : Command)
    (h : enabled (run initialState cs) c = true) :
    match c with
    | Command.startGame => phase (step (run initialState cs) c) = Phase.Running
    | Command.difficultyClick _ => phase (step (run initialState cs) c) = Phase.Running
    | Command.resetGame => phase (step (run initialState cs) c) = Phase.Idle
    | Command.updateTimer =>
      phase (run initialState cs) = Phase.Running ∧
        (phase (step (run initialState cs) c) = Phase.Running ∨
          phase (step (run initialState cs) c) = Phase.Ended)
    | _ => phase (step (run initialState cs) c) = phase (run initialState cs) := by
  have hco := reachable_coherent cs
  cases c with
  | startGame => rfl
  | difficultyClick d => rfl
  | resetGame =>
    show phase (resetGame (run initialState cs)) = Phase.Idle
    rw [resetGame_of_coherent _ hco]
    rfl
  | updateTimer => exact updateTimer_phase _ hco h
  | gameLoop gameH => exact phase_eq_of_control _ _ (gameLoop_control _ gameH)
  | spawnEnemy rType rX gameW enemyW enemyH =>
    exact phase_eq_of_control _ _ (spawnEnemy_control _ rType rX gameW enemyW enemyH)
  | shoot offsetLeft offsetWidth offsetTop =>
    exact phase_eq_of_control _ _ (shoot_control _ offsetLeft offsetWidth offsetTop)
  | movePlayer direction gameW playerW =>
    exact phase_eq_of_control _ _ (movePlayer_control _ direction gameW playerW)
  | shotButtonClick shotType => rfl
  | selectShotByIndex index buttons =>
    exact phase_eq_of_control _ _ (selectShotByIndex_control _ index buttons)

theorem phase_transitions_witness :
    enabled (run initialState [Command.startGame]) Command.updateTimer = true ∧
    (phase (run initialState [Command.startGame]) = Phase.Running ∧
      (phase (step (run initialState [Command.startGame]) Command.updateTimer) = Phase.Running ∨
        phase (step (run initialState [Command.startGame]) Command.updateTimer) =
          Phase.Ended)) :=
  ⟨by decide!, phase_transitions [Command.startGame] Command.updateTimer (by decide!)⟩

/-- C14: in a state with score 0 and both counters 0 that holds exactly one
shot and exactly one enemy, the two overlapping, one `checkCollisions` pass
empties both lists; when the type of the shot is the `correctShot` of the
enemy the score is 100 with one correct and no wrong answer, and otherwise the
score is 0 with no correct and one wrong answer. -/
theorem single_pair_pass (s : State) (shot : Shot) (enemy : Enemy)
    (hscore : s.score = 0) (hc : s.correctAnswers = 0) (hw : s.wrongAnswers = 0)
    (hs : s.shots = [shot]) (he : s.enemies = [enemy])
    (hit : isColliding (some shot.element) (some enemy.element) = true) :
    (checkCollisions s).shots = [] ∧
    (checkCollisions s).enemies = [] ∧
    (if shot.type = enemy.correctShot then
      (checkCollisions s).score = 100 ∧
      (checkCollisions s).correctAnswers = 1 ∧
      (checkCollisions s).wrongAnswers = 0
     else
      (checkCollisions s).score = 0 ∧
      (checkCollisions s).correctAnswers = 0 ∧
      (checkCollisions s).wrongAnswers = 1) := by
  have h0 : s.shots[0]? = some shot := by rw [hs]; rfl
  have e0 : s.enemies[0]? = some enemy := by rw [he]; rfl
  have hres : checkCollisions s =
      { handleCollision s shot enemy with
        enemies := s.enemies.eraseIdx 0
        shots := s.shots.eraseIdx 0 } := by
    unfold checkCollisions
    have hl : s.shots.length = 0 + 1 := by rw [hs]; rfl
    have hl2 : s.enemies.length = 0 + 1 := by rw [he]; rfl
    rw [hl, checkCollisionsOuter_succ s 0 shot h0, hl2,
      checkCollisionsInner_succ s 0 shot 0 enemy e0, if_pos hit]
    rfl
  rw [hres]
  refine ⟨by show s.shots.eraseIdx 0 = []; rw [hs]; rfl,
    by show s.enemies.eraseIdx 0 = []; rw [he]; rfl, ?_⟩
  show if shot.type = enemy.correctShot then
      (handleCollision s shot enemy).score = 100 ∧
      (handleCollision s shot enemy).correctAnswers = 1 ∧
      (handleCollision s shot enemy).wrongAnswers = 0
    else
      (handleCollision s shot enemy).score = 0 ∧
      (handleCollision s shot enemy).correctAnswers = 0 ∧
      (handleCollision s shot enemy).wrongAnswers = 1
  unfold handleCollision
  by_cases hk : shot.type = enemy.correctShot
  · simp [hk, hscore, hc, hw, pointsCorrect]
  · simp [hk, hscore, hc, hw, pointsWrong]

theorem single_pair_pass_witness :
    ((checkCollisions (samplePair "dry-eye" "lubricant")).shots = [] ∧
      (checkCollisions (samplePair "dry-eye" "lubricant")).enemies = [] ∧
      (checkCollisions (samplePair "dry-eye" "lubricant")).score = 100 ∧
      (checkCollisions (samplePair "dry-eye" "lubricant")).correctAnswers = 1 ∧
      (checkCollisions (samplePair "dry-eye" "lubricant")).wrongAnswers = 0) ∧
    ((checkCollisions (samplePair "allergic-conjunctivitis" "antihistaminic")).shots = [] ∧
      (checkCollisions (samplePair "allergic-conjunctivitis" "antihistaminic")).enemies = [] ∧
      (checkCollisions (samplePair "allergic-conjunctivitis" "antihistaminic")).score = 0 ∧
      (checkCollisions (samplePair "allergic-conjunctivitis" "antihistaminic")).correctAnswers
        = 0 ∧
      (checkCollisions (samplePair "allergic-conjunctivitis" "antihistaminic")).wrongAnswers
        = 1) := by
  have h1 := single_pair_pass (samplePair "dry-eye" "lubricant")
    ⟨⟨196, 100, 8, 15⟩, "lubricant", 196, 100⟩
    ⟨⟨180, 80, 45, 40⟩, "dry-eye", "lubricant", 180, 80⟩ rfl rfl rfl rfl rfl (by decide!)
  have h2 := single_pair_pass (samplePair "allergic-conjunctivitis" "antihistaminic")
    ⟨⟨196, 100, 8, 15⟩, "lubricant", 196, 100⟩
    ⟨⟨180, 80, 45, 40⟩, "allergic-conjunctivitis", "antihistaminic", 180, 80⟩
    rfl rfl rfl rfl rfl (by decide!)
  rw [if_pos (by decide)] at h1
  rw [if_neg (by decide)] at h2
  exact ⟨h1, h2⟩

/-! ## Motion: theorems -/

theorem getElem?_append_length {α : Type} (pre : List α) (a : α) (post : List α) :
    (pre ++ a :: post)[pre.length]? = some a := by
  induction pre with
  | nil => simp
  | cons b t ih => simpa using ih

theorem eraseIdx_append_length {α : Type} (pre : List α) (a : α) (post : List α) :
    (pre ++ a :: post).eraseIdx pre.length = pre ++ post := by
  induction pre with
  | nil => rfl
  | cons b t ih => simpa using ih

theorem set_append_length {α : Type} (pre : List α) (a b : α) (post : List α) :
    (pre ++ a :: post).set pre.length b = pre ++ b :: post := by
  induction pre with
  | nil => rfl
  | cons c t ih => simp

/-- The loop of `moveShots`, started at the length of a prefix of the list,
moves and filters that prefix and leaves the rest of the list alone. -/
theorem moveShotsLoop_append (pre : List Shot) :
    ∀ post : List Shot,
      moveShotsLoop (pre ++ post) pre.length =
        (pre.map (fun shot =>
          ({ shot with
             y := shot.y - 8
             element := { shot.element with top := shot.y - 8 } } : Shot))).filter
          (fun shot => !decide (shot.y < -shot.element.offsetHeight)) ++ post := by
  induction pre using List.reverseRecOn with
  | nil => intro post; rfl
  | append_singleton pre a ih =>
    intro post
    have hlen : (pre ++ [a]).length = pre.length + 1 := by simp
    have hl : pre ++ [a] ++ post = pre ++ a :: post := by simp
    rw [hlen, hl, moveShotsLoop]
    simp only [getElem?_append_length]
    by_cases hout : a.y - shotSpeed < -a.element.offsetHeight
    · have hout2 : a.y - 8 < -a.element.offsetHeight := hout
      rw [if_pos hout, eraseIdx_append_length, ih post]
      simp [List.filter_append, hout2]
    · have hout2 : ¬ (a.y - 8 < -a.element.offsetHeight) := hout
      rw [if_neg hout, set_append_length, ih]
      simp [List.filter_append, hout2, shotSpeed]

/-- C15: `moveShots` handles every shot once: it lowers its `y`, and the top
of its element, by 8 and leaves its type and `x` alone, then drops exactly the
shots whose new `y` is below minus their height and keeps the others in their
order; nothing else in the state changes. -/
theorem moveShots_spec (s : State) :
    moveShots s =
      { s with
        shots :=
          (s.shots.map (fun shot =>
            ({ shot with
               y := shot.y - 8
               element := { shot.element with top := shot.y - 8 } } : Shot))).filter
            (fun shot => !decide (shot.y < -shot.element.offsetHeight)) } := by
  unfold moveShots
  have h := moveShotsLoop_append s.shots []
  simp only [List.append_nil] at h
  rw [h]

/-- The loop of `moveEnemies` in a field of positive height, started at the
length of a prefix of the list, moves and filters that prefix and leaves the
rest of the list alone. -/
theorem moveEnemiesLoop_append (speed gameH : Rat) (hH : 0 < gameH) (pre : List Enemy) :
    ∀ post : List Enemy,
      moveEnemiesLoop speed gameH (pre ++ post) pre.length =
        (pre.map (fun enemy =>
          ({ enemy with
             y := enemy.y + speed
             element := { enemy.element with top := enemy.y + speed } } : Enemy))).filter
          (fun enemy => !decide (enemy.y + enemy.element.offsetHeight > gameH)) ++ post := by
  induction pre using List.reverseRecOn with
  | nil => intro post; rfl
  | append_singleton pre a ih =>
    intro post
    have hlen : (pre ++ [a]).length = pre.length + 1 := by simp
    have hl : pre ++ [a] ++ post = pre ++ a :: post := by simp
    rw [hlen, hl, moveEnemiesLoop]
    simp only [getElem?_append_length]
    by_cases hout : a.y + speed + a.element.offsetHeight > gameH
    · rw [if_pos ⟨hH, hout⟩, eraseIdx_append_length, ih post]
      simp [List.filter_append, hout]
    · rw [if_neg (fun hc => hout hc.2), set_append_length, ih]
      simp [List.filter_append, hout]

/-- C16: in a field of positive height `moveEnemies` handles every enemy once:
it raises its `y`, and the top of its element, by the speed of the difficulty
(1/2 for easy, 1 for medium, 3/2 for hard), then drops exactly the enemies
whose new `y` plus their height exceeds the field height and keeps the others
in their order; the score, the counters and the rest of the state are
unchanged. -/
theorem moveEnemies_spec (s : State) (gameH : Rat) (hH : 0 < gameH) :
    moveEnemies s gameH =
      { s with
        enemies :=
          (s.enemies.map (fun enemy =>
            ({ enemy with
               y := enemy.y + enemySpeed s.difficulty
               element := { enemy.element with top := enemy.y + enemySpeed s.difficulty } }
              : Enemy))).filter
            (fun enemy => !decide (enemy.y + enemy.element.offsetHeight > gameH)) } ∧
    (moveEnemies s gameH).score = s.score ∧
    (moveEnemies s gameH).correctAnswers = s.correctAnswers ∧
    (moveEnemies s gameH).wrongAnswers = s.wrongAnswers ∧
    enemySpeed Difficulty.easy = 1 / 2 ∧
    enemySpeed Difficulty.medium = 1 ∧
    enemySpeed Difficulty.hard = 3 / 2 := by
  refine ⟨?_, rfl, rfl, rfl, rfl, rfl, rfl⟩
  unfold moveEnemies
  have h := moveEnemiesLoop_append (enemySpeed s.difficulty) gameH hH s.enemies []
  simp only [List.append_nil] at h
  rw [h]

theorem moveEnemies_spec_witness :
    (0 : Rat) < 600 ∧
    (moveEnemies sampleDescent 600).enemies =
      [⟨⟨10, -59, 45, 40⟩, "dry-eye", "lubricant", 10, -59⟩,
       ⟨⟨90, 201, 45, 40⟩, "glaucoma", "ts", 90, 201⟩] := by
  have h := (moveEnemies_spec sampleDescent 600 (by norm_num)).1
  refine ⟨by norm_num, ?_⟩
  rw [h]
  decide!

/-! ## Input commands: theorems -/

theorem enemyTypes_index (rType : Rat) (h0 : 0 ≤ rType) (h1 : rType < 1) :
    ¬ (Rat.floor (rType * (enemyTypes.length : Rat)) < 0) ∧
    ∃ t, enemyTypes[(Rat.floor (rType * (enemyTypes.length : Rat))).toNat]? = some t ∧
      t ∈ enemyTypes := by
  have hlen : ((enemyTypes.length : Nat) : Rat) = 5 := by
    simp [enemyTypes]
  have hfl : Rat.floor (rType * (enemyTypes.length : Rat)) =
      Int.floor (rType * (enemyTypes.length : Rat)) := rfl
  have hnn : 0 ≤ Int.floor (rType * (enemyTypes.length : Rat)) := by
    apply Int.floor_nonneg.mpr
    rw [hlen]
    linarith
  have hlt : Int.floor (rType * (enemyTypes.length : Rat)) < 5 := by
    apply Int.floor_lt.mpr
    rw [hlen]
    push_cast
    linarith
  rw [hfl]
  refine ⟨by omega, ?_⟩
  have hidx : (Int.floor (rType * (enemyTypes.length : Rat))).toNat < enemyTypes.length := by
    have : enemyTypes.length = 5 := rfl
    omega
  exact ⟨enemyTypes[(Int.floor (rType * (enemyTypes.length : Rat))).toNat],
    List.getElem?_eq_getElem hidx, List.getElem_mem hidx⟩

/-- In a field at least as wide as an enemy, with both random draws in the
unit interval, `spawnEnemy` in a round that is not over appends one enemy of
a type of the table, at a horizontal offset between 0 and the field width
minus 45 and at the vertical offset -60. -/
theorem spawnEnemy_in_field (s : State) (rType rX gameW enemyW enemyH : Rat)
    (hover : s.isGameOver = false) (ht0 : 0 ≤ rType) (ht1 : rType < 1)
    (hx0 : 0 ≤ rX) (hx1 : rX < 1) (hW : 45 ≤ gameW) :
    ∃ t ∈ enemyTypes,
      spawnEnemy s rType rX gameW enemyW enemyH =
        { s with
          enemies := s.enemies ++
            [⟨⟨rX * (gameW - 45), -60, enemyW, enemyH⟩, t.type, t.correctShot,
              rX * (gameW - 45), -60⟩] } ∧
      0 ≤ rX * (gameW - 45) ∧ rX * (gameW - 45) ≤ gameW - 45 := by
  obtain ⟨hk, t, ht, hmem⟩ := enemyTypes_index rType ht0 ht1
  refine ⟨t, hmem, ?_, ?_, ?_⟩
  · have hg : ¬ (gameW = 0 ∨ gameW ≤ 0) := by
      intro hc
      rcases hc with hc | hc <;> linarith
    unfold spawnEnemy
    rw [if_neg (by simp [hover])]
    dsimp only
    rw [if_neg hk]
    simp only [ht]
    rw [if_neg hg]
  · exact mul_nonneg hx0 (by linarith)
  · have : rX * (gameW - 45) ≤ 1 * (gameW - 45) :=
      mul_le_mul_of_nonneg_right (le_of_lt hx1) (by linarith)
    linarith

/-- C17: the code departs from the claim in a field narrower than an enemy:
with field width 30 and both random draws 1/2, `spawnEnemy` creates an enemy
at the horizontal offset -15/2, left of the field, where the claim has the
offset between 0 and the field width minus 45. -/
theorem spawnEnemy_narrow_field :
    (spawnEnemy (startGame initialState) (1 / 2) (1 / 2) 30 45 40).enemies =
      [⟨⟨-15 / 2, -60, 45, 40⟩, "sore-eye", "decongestant", -15 / 2, -60⟩] ∧
    ¬ ((0 : Rat) ≤ -15 / 2) := by
  refine ⟨by decide!, by norm_num⟩

/-- C18: with a field width of zero or below, `spawnEnemy` and `movePlayer`
both leave the state as it is: no enemy is added and `playerX` keeps its
value. -/
theorem nonpositive_width_noop (s : State) (rType rX gameW enemyW enemyH playerW : Rat)
    (direction : String) (h : gameW ≤ 0) :
    spawnEnemy s rType rX gameW enemyW enemyH = s ∧
    movePlayer s direction gameW playerW = s ∧
    (spawnEnemy s rType rX gameW enemyW enemyH).enemies = s.enemies ∧
    (movePlayer s direction gameW playerW).playerX = s.playerX := by
  have hg : gameW = 0 ∨ gameW ≤ 0 := Or.inr h
  have h1 : spawnEnemy s rType rX gameW enemyW enemyH = s := by
    unfold spawnEnemy
    by_cases hover : s.isGameOver = true
    · rw [if_pos hover]
    · rw [if_neg hover]
      dsimp only
      by_cases hk : Rat.floor (rType * (enemyTypes.length : Rat)) < 0
      · rw [if_pos hk]
      · rw [if_neg hk]
        cases enemyTypes[(Rat.floor (rType * (enemyTypes.length : Rat))).toNat]? with
        | none => rfl
        | some t =>
          dsimp only
          rw [if_pos hg]
  have h2 : movePlayer s direction gameW playerW = s := by
    unfold movePlayer
    by_cases hover : s.isGameOver = true
    · rw [if_pos hover]
    · rw [if_neg hover, if_pos hg]
  exact ⟨h1, h2, by rw [h1], by rw [h2]⟩

theorem nonpositive_width_noop_witness :
    (0 : Rat) ≤ 0 ∧
    spawnEnemy (startGame initialState) (1 / 2) (1 / 2) 0 45 40 = startGame initialState ∧
    movePlayer (startGame initialState) "left" 0 40 = startGame initialState ∧
    (spawnEnemy (startGame initialState) (1 / 2) (1 / 2) 0 45 40).enemies =
      (startGame initialState).enemies ∧
    (movePlayer (startGame initialState) "left" 0 40).playerX =
      (startGame initialState).playerX :=
  ⟨le_refl 0,
    nonpositive_width_noop (startGame initialState) (1 / 2) (1 / 2) 0 45 40 40 "left"
      (le_refl 0)⟩

/-- C19, as stated, fails for a player wider than the field: with field width
100 and player width 200, `movePlayer` leaves `playerX` at 100, and the right
end of the footprint, at 200 percent, is outside the field. -/
theorem movePlayer_wide_player_counterexample :
    (movePlayer (startGame initialState) "left" 100 200).playerX = 100 ∧
    ¬ ((movePlayer (startGame initialState) "left" 100 200).playerX + 200 / 100 * 50 ≤ 100) := by
  have h : (movePlayer (startGame initialState) "left" 100 200).playerX = 100 := by decide!
  refine ⟨h, ?_⟩
  rw [h]
  norm_num

theorem movePlayerRounded_exact (s : State) (direction : String) (gameW playerW : Rat) :
    movePlayerRounded (fun r => r) s direction gameW playerW =
      movePlayer s direction gameW playerW := rfl

theorem roundEighth_mono (a b : Rat) (h : a ≤ b) : roundEighth a ≤ roundEighth b := by
  unfold roundEighth
  have h1 : a * 8 + 1 / 2 ≤ b * 8 + 1 / 2 := by linarith
  have h2 : Rat.floor (a * 8 + 1 / 2) ≤ Rat.floor (b * 8 + 1 / 2) := Int.floor_mono h1
  have h3 : ((Rat.floor (a * 8 + 1 / 2) : Int) : Rat) ≤ ((Rat.floor (b * 8 + 1 / 2) : Int) : Rat) := by
    exact_mod_cast h2
  exact div_le_div_of_nonneg_right h3 (by norm_num)

/-- The value `movePlayerRounded` leaves in `playerX` past its two guards. -/
theorem movePlayerRounded_playerX (fl : Rat → Rat) (s : State) (direction : String)
    (gameW playerW : Rat) (hover : s.isGameOver = false) (hW : 0 < gameW) :
    (movePlayerRounded fl s direction gameW playerW).playerX =
      max (fl (fl (playerW / gameW) * 50))
        (min (fl (100 - fl (fl (playerW / gameW) * 50)))
          (if direction = "left" then fl (s.playerX - 2)
            else if direction = "right" then fl (s.playerX + 2)
            else s.playerX)) := by
  have hg : ¬ (gameW = 0 ∨ gameW ≤ 0) := by
    intro hc
    rcases hc with hc | hc <;> linarith
  unfold movePlayerRounded
  rw [if_neg (by simp [hover]), if_neg hg]
  rfl

/-- C19, amended: for every positive field width, every player width not
above the field width and either direction, after `movePlayer` in a round that
is not over `playerX` lies between the two bounds the code computes: half the
player width in percent of the field width, which is at most 50, and 100 minus
it, which is at least 50.  So the left end of the footprint, `playerX` minus
that half, is at least 0, and the right end, `playerX` plus that half, exceeds
100 by no more than the rounding of the subtraction from 100; in exact
arithmetic the footprint lies within 0 and 100.  When `playerX` moved by the
step 2 lies between the two bounds, that is its new value.  The rounding of
the double operations is any monotone map that leaves 1 and 50 as they are. -/
theorem movePlayer_footprint (fl : Rat → Rat) (s : State) (direction : String)
    (gameW playerW : Rat) (hmono : ∀ a b : Rat, a ≤ b → fl a ≤ fl b) (h1 : fl 1 = 1)
    (h50 : fl 50 = 50) (hover : s.isGameOver = false) (hW : 0 < gameW)
    (hp : playerW ≤ gameW) :
    fl (fl (playerW / gameW) * 50) ≤ 50 ∧
    50 ≤ fl (100 - fl (fl (playerW / gameW) * 50)) ∧
    0 ≤ (movePlayerRounded fl s direction gameW playerW).playerX -
      fl (fl (playerW / gameW) * 50) ∧
    (movePlayerRounded fl s direction gameW playerW).playerX ≤
      fl (100 - fl (fl (playerW / gameW) * 50)) ∧
    (∀ d : Rat, fl (100 - fl (fl (playerW / gameW) * 50)) ≤
        100 - fl (fl (playerW / gameW) * 50) + d →
      (movePlayerRounded fl s direction gameW playerW).playerX +
        fl (fl (playerW / gameW) * 50) ≤ 100 + d) ∧
    (direction = "left" → fl (fl (playerW / gameW) * 50) ≤ fl (s.playerX - 2) →
      fl (s.playerX - 2) ≤ fl (100 - fl (fl (playerW / gameW) * 50)) →
      (movePlayerRounded fl s direction gameW playerW).playerX = fl (s.playerX - 2)) ∧
    (direction = "right" → fl (fl (playerW / gameW) * 50) ≤ fl (s.playerX + 2) →
      fl (s.playerX + 2) ≤ fl (100 - fl (fl (playerW / gameW) * 50)) →
      (movePlayerRounded fl s direction gameW playerW).playerX = fl (s.playerX + 2)) ∧
    ((∀ r : Rat, fl r = r) →
      movePlayerRounded fl s direction gameW playerW = movePlayer s direction gameW playerW ∧
      0 ≤ (movePlayer s direction gameW playerW).playerX - playerW / gameW * 50 ∧
      (movePlayer s direction gameW playerW).playerX + playerW / gameW * 50 ≤ 100) := by
  have hq : playerW / gameW ≤ 1 := (div_le_one hW).mpr hp
  have hq2 : fl (playerW / gameW) ≤ 1 := by
    have := hmono _ _ hq
    rwa [h1] at this
  have hhalf : fl (fl (playerW / gameW) * 50) ≤ 50 := by
    have := hmono (fl (playerW / gameW) * 50) 50 (by linarith)
    rwa [h50] at this
  have hhi : 50 ≤ fl (100 - fl (fl (playerW / gameW) * 50)) := by
    have := hmono 50 (100 - fl (fl (playerW / gameW) * 50)) (by linarith)
    rwa [h50] at this
  have hval := movePlayerRounded_playerX fl s direction gameW playerW hover hW
  have hlow : fl (fl (playerW / gameW) * 50) ≤
      (movePlayerRounded fl s direction gameW playerW).playerX := by
    rw [hval]
    exact le_max_left _ _
  have hup : (movePlayerRounded fl s direction gameW playerW).playerX ≤
      fl (100 - fl (fl (playerW / gameW) * 50)) := by
    rw [hval]
    exact max_le (by linarith) (min_le_left _ _)
  refine ⟨hhalf, hhi, by linarith, hup, ?_, ?_, ?_, ?_⟩
  · intro d hd
    linarith
  · intro hl a1 a2
    rw [hval, if_pos hl, min_eq_right a2, max_eq_right a1]
  · intro hr a1 a2
    have hne : ¬ direction = "left" := by
      rw [hr]
      decide
    rw [hval, if_neg hne, if_pos hr, min_eq_right a2, max_eq_right a1]
  · intro hid
    have hfun : fl = fun r => r := funext hid
    have heq : movePlayerRounded fl s direction gameW playerW =
        movePlayer s direction gameW playerW := by
      rw [hfun]
      rfl
    have e1 : fl (fl (playerW / gameW) * 50) = playerW / gameW * 50 := by
      rw [hid, hid]
    have e2 : fl (100 - fl (fl (playerW / gameW) * 50)) = 100 - playerW / gameW * 50 := by
      rw [hid, e1]
    rw [← heq]
    refine ⟨rfl, ?_, ?_⟩
    · rw [← e1]
      linarith
    · have := hup
      rw [e2] at this
      linarith

theorem movePlayer_footprint_witness :
    (∀ a b : Rat, a ≤ b → roundEighth a ≤ roundEighth b) ∧
    roundEighth 1 = 1 ∧ roundEighth 50 = 50 ∧
    roundEighth (roundEighth (50 / 300) * 50) = 25 / 4 ∧
    0 ≤ (movePlayerRounded roundEighth (startGame initialState) "right" 300 50).playerX -
      roundEighth (roundEighth (50 / 300) * 50) ∧
    (movePlayerRounded roundEighth (startGame initialState) "right" 300 50).playerX ≤
      roundEighth (100 - roundEighth (roundEighth (50 / 300) * 50)) ∧
    (movePlayerRounded roundEighth (startGame initialState) "right" 300 50).playerX = 52 := by
  obtain ⟨_, _, h3, h4, _, _, _, _⟩ :=
    movePlayer_footprint roundEighth (startGame initialState) "right" 300 50 roundEighth_mono
      (by decide!) (by decide!) rfl (by norm_num) (by norm_num)
  exact ⟨roundEighth_mono, by decide!, by decide!, by decide!, h3, h4, by decide!⟩

/-- C20: in a round that is not over `shoot` appends exactly one shot, of the
selected type, at the horizontal offset of the player plus half the player
width minus 4 and at the vertical offset of the player minus 15: the shot, 8
wide and 15 high, is centred on the centre of the player and its bottom edge
is the top edge of the player.  The shots already there, the enemies, the
score, the counters and `timeLeft` are unchanged. -/
theorem shoot_spec (s : State) (offsetLeft offsetWidth offsetTop : Rat)
    (hover : s.isGameOver = false) :
    shoot s offsetLeft offsetWidth offsetTop =
      { s with
        shots := s.shots ++
          [⟨⟨offsetLeft + offsetWidth / 2 - 4, offsetTop - 15, 8, 15⟩, s.selectedShotType,
            offsetLeft + offsetWidth / 2 - 4, offsetTop - 15⟩] } ∧
    (shoot s offsetLeft offsetWidth offsetTop).shots.length = s.shots.length + 1 ∧
    (shoot s offsetLeft offsetWidth offsetTop).shots.take s.shots.length = s.shots ∧
    (shoot s offsetLeft offsetWidth offsetTop).enemies = s.enemies ∧
    (shoot s offsetLeft offsetWidth offsetTop).score = s.score ∧
    (shoot s offsetLeft offsetWidth offsetTop).correctAnswers = s.correctAnswers ∧
    (shoot s offsetLeft offsetWidth offsetTop).wrongAnswers = s.wrongAnswers ∧
    (shoot s offsetLeft offsetWidth offsetTop).timeLeft = s.timeLeft ∧
    (Element.getBoundingClientRect
        ⟨offsetLeft + offsetWidth / 2 - 4, offsetTop - 15, 8, 15⟩).bottom = offsetTop ∧
    ((Element.getBoundingClientRect
        ⟨offsetLeft + offsetWidth / 2 - 4, offsetTop - 15, 8, 15⟩).left +
      (Element.getBoundingClientRect
        ⟨offsetLeft + offsetWidth / 2 - 4, offsetTop - 15, 8, 15⟩).right) / 2 =
      offsetLeft + offsetWidth / 2 := by
  have h4 : (8 : Rat) / 2 = 4 := by norm_num
  have hres : shoot s offsetLeft offsetWidth offsetTop =
      { s with
        shots := s.shots ++
          [⟨⟨offsetLeft + offsetWidth / 2 - 4, offsetTop - 15, 8, 15⟩, s.selectedShotType,
            offsetLeft + offsetWidth / 2 - 4, offsetTop - 15⟩] } := by
    unfold shoot
    rw [if_neg (by simp [hover])]
    dsimp only
    rw [h4]
  refine ⟨hres, ?_, ?_, ?_, ?_, ?_, ?_, ?_, ?_, ?_⟩
  · rw [hres]
    simp
  · rw [hres]
    simp
  · rw [hres]
  · rw [hres]
  · rw [hres]
  · rw [hres]
  · rw [hres]
  · simp [Element.getBoundingClientRect]
  · simp only [Element.getBoundingClientRect]
    ring

theorem shoot_spec_witness :
    (shoot (startGame initialState) 180 40 500).shots =
      [⟨⟨180 + 40 / 2 - 4, 500 - 15, 8, 15⟩, "lubricant", 180 + 40 / 2 - 4, 500 - 15⟩] := by
  have h := (shoot_spec (startGame initialState) 180 40 500 rfl).1
  rw [h]
  rfl

/-! ## Overlap test: theorems -/

theorem isColliding_iff (e1 e2 : Element) :
    isColliding (some e1) (some e2) = true ↔
      (e2.getBoundingClientRect.left ≤ e1.getBoundingClientRect.right ∧
        e1.getBoundingClientRect.left ≤ e2.getBoundingClientRect.right ∧
        e2.getBoundingClientRect.top ≤ e1.getBoundingClientRect.bottom ∧
        e1.getBoundingClientRect.top ≤ e2.getBoundingClientRect.bottom) := by
  simp only [isColliding, Bool.not_eq_true', Bool.or_eq_false_iff, decide_eq_false_iff_not,
    not_lt, gt_iff_lt]
  tauto

/-- C23: `isColliding` on two elements is the bounding-box test on their
rectangles: it holds unless one rectangle lies wholly to the left of, to the
right of, above or below the other.  The comparisons are strict, so rectangles
that only touch along an edge or at a corner count as overlapping. -/
theorem isColliding_aabb (e1 e2 : Element) :
    (isColliding (some e1) (some e2) = true ↔
      ¬ (e1.getBoundingClientRect.right < e2.getBoundingClientRect.left ∨
        e1.getBoundingClientRect.left > e2.getBoundingClientRect.right ∨
        e1.getBoundingClientRect.bottom < e2.getBoundingClientRect.top ∨
        e1.getBoundingClientRect.top > e2.getBoundingClientRect.bottom)) ∧
    (e1.getBoundingClientRect.right = e2.getBoundingClientRect.left →
      0 ≤ e1.offsetWidth → 0 ≤ e2.offsetWidth →
      e2.getBoundingClientRect.top ≤ e1.getBoundingClientRect.bottom →
      e1.getBoundingClientRect.top ≤ e2.getBoundingClientRect.bottom →
      isColliding (some e1) (some e2) = true) ∧
    isColliding (some ⟨0, 0, 10, 10⟩) (some ⟨10, 0, 10, 10⟩) = true ∧
    isColliding (some ⟨0, 0, 10, 10⟩) (some ⟨10, 10, 10, 10⟩) = true ∧
    isColliding (some ⟨0, 0, 10, 10⟩) (some ⟨11, 0, 10, 10⟩) = false := by
  refine ⟨?_, ?_, by decide!, by decide!, by decide!⟩
  · rw [isColliding_iff]
    simp only [not_or, not_lt, gt_iff_lt]
  · intro hr hw1 hw2 ht hb
    rw [isColliding_iff]
    refine ⟨le_of_eq hr.symm, ?_, ht, hb⟩
    have h1 : e1.getBoundingClientRect.left ≤ e1.getBoundingClientRect.right := by
      show e1.left ≤ e1.left + e1.offsetWidth
      linarith
    have h2 : e2.getBoundingClientRect.left ≤ e2.getBoundingClientRect.right := by
      show e2.left ≤ e2.left + e2.offsetWidth
      linarith
    linarith

theorem isColliding_aabb_witness :
    isColliding (some ⟨3, 4, 8, 15⟩) (some ⟨11, 19, 45, 40⟩) = true :=
  (isColliding_aabb ⟨3, 4, 8, 15⟩ ⟨11, 19, 45, 40⟩).2.1 (by norm_num [Element.getBoundingClientRect])
    (by norm_num) (by norm_num) (by norm_num [Element.getBoundingClientRect])
    (by norm_num [Element.getBoundingClientRect])

/-- C29: `isColliding` is symmetric in its two arguments, and an element of
width and height at least 0 overlaps itself. -/
theorem isColliding_symm_refl :
    (∀ a b : Option Element, isColliding a b = isColliding b a) ∧
    (∀ a : Element, 0 ≤ a.offsetWidth → 0 ≤ a.offsetHeight →
      isColliding (some a) (some a) = true) := by
  constructor
  · intro a b
    cases a with
    | none => cases b <;> rfl
    | some e1 =>
      cases b with
      | none => rfl
      | some e2 =>
        have h1 := isColliding_iff e1 e2
        have h2 := isColliding_iff e2 e1
        cases hc : isColliding (some e1) (some e2) with
        | true =>
          obtain ⟨a1, a2, a3, a4⟩ := h1.mp hc
          exact (h2.mpr ⟨a2, a1, a4, a3⟩).symm
        | false =>
          cases hd : isColliding (some e2) (some e1) with
          | false => rfl
          | true =>
            obtain ⟨a1, a2, a3, a4⟩ := h2.mp hd
            rw [h1.mpr ⟨a2, a1, a4, a3⟩] at hc
            cases hc
  · intro a hw hh
    rw [isColliding_iff]
    refine ⟨?_, ?_, ?_, ?_⟩
    · show a.left ≤ a.left + a.offsetWidth
      linarith
    · show a.left ≤ a.left + a.offsetWidth
      linarith
    · show a.top ≤ a.top + a.offsetHeight
      linarith
    · show a.top ≤ a.top + a.offsetHeight
      linarith

theorem isColliding_symm_refl_witness :
    isColliding (some ⟨20, 30, 8, 15⟩) (some ⟨20, 30, 8, 15⟩) = true ∧
    isColliding (some ⟨20, 30, 8, 15⟩) (some ⟨25, 20, 45, 40⟩) =
      isColliding (some ⟨25, 20, 45, 40⟩) (some ⟨20, 30, 8, 15⟩) :=
  ⟨isColliding_symm_refl.2 ⟨20, 30, 8, 15⟩ (by norm_num) (by norm_num),
    isColliding_symm_refl.1 _ _⟩

/-! ## Badge order: theorems -/

theorem badgeName_mono (s1 s2 : Int) (a1 a2 : Rat) (hs : s1 ≤ s2) (ha : a1 ≤ a2) :
    tier (badgeName s1 a1) ≤ tier (badgeName s2 a2) := by
  unfold badgeName
  dsimp only
  by_cases h1 : s1 ≥ 5000 ∧ a1 ≥ 80
  · have h2 : s2 ≥ 5000 ∧ a2 ≥ 80 := ⟨by omega, by linarith [h1.2]⟩
    rw [if_pos h1, if_pos h2]
  · rw [if_neg h1]
    by_cases h3 : s1 ≥ 2000 ∧ a1 ≥ 60
    · rw [if_pos h3]
      have h4 : s2 ≥ 2000 ∧ a2 ≥ 60 := ⟨by omega, by linarith [h3.2]⟩
      by_cases h2 : s2 ≥ 5000 ∧ a2 ≥ 80
      · rw [if_pos h2]
        decide
      · rw [if_neg h2, if_pos h4]
    · rw [if_neg h3]
      exact Nat.zero_le _

theorem accuracy_mono (n c1 c2 : Nat) (h12 : c1 ≤ c2) (h2n : c2 ≤ n) :
    accuracy c1 (n - c1) ≤ accuracy c2 (n - c2) := by
  have e1 : c1 + (n - c1) = n := by omega
  have e2 : c2 + (n - c2) = n := by omega
  unfold accuracy
  dsimp only
  rw [e1, e2]
  by_cases hn : n > 0
  · rw [if_pos hn, if_pos hn]
    have hnq : (0 : Rat) < (n : Rat) := by exact_mod_cast hn
    have hc : (c1 : Rat) ≤ (c2 : Rat) := by exact_mod_cast h12
    have : (c1 : Rat) / (n : Rat) ≤ (c2 : Rat) / (n : Rat) :=
      div_le_div_of_nonneg_right hc (le_of_lt hnq)
    linarith
  · rw [if_neg hn, if_neg hn]

/-- C28: the badge does not go down when the score goes up with the two
counters fixed, nor when, with the score and the number of answers fixed,
more of the answers are correct; the badges are ordered Novice, Hero,
Legend. -/
theorem badge_monotone (s1 s2 : Int) (c w : Nat) (n c1 c2 : Nat)
    (hs : s1 ≤ s2) (h12 : c1 ≤ c2) (h2n : c2 ≤ n) :
    tier (badgeName s1 (accuracy c w)) ≤ tier (badgeName s2 (accuracy c w)) ∧
    tier (badgeName s1 (accuracy c1 (n - c1))) ≤ tier (badgeName s1 (accuracy c2 (n - c2))) ∧
    tier Badge.Novice < tier Badge.Hero ∧ tier Badge.Hero < tier Badge.Legend :=
  ⟨badgeName_mono s1 s2 _ _ hs (le_refl _),
    badgeName_mono s1 s1 _ _ (le_refl _) (accuracy_mono n c1 c2 h12 h2n),
    by decide, by decide⟩

theorem badge_monotone_witness :
    tier (badgeName 1900 (accuracy 50 10)) ≤ tier (badgeName 5200 (accuracy 50 10)) ∧
    tier (badgeName 1900 (accuracy 30 (60 - 30))) ≤
      tier (badgeName 1900 (accuracy 50 (60 - 50))) ∧
    tier Badge.Novice < tier Badge.Hero ∧ tier Badge.Hero < tier Badge.Legend :=
  badge_monotone 1900 5200 50 10 60 30 50 (by decide) (by decide) (by decide)

/-! ## After the end of the round: theorems -/

/-- C24: once `isGameOver` is set, `gameLoop`, `updateTimer`, `spawnEnemy`,
`shoot` and `movePlayer` return at their guard: each leaves the whole state,
and so score, counters, `timeLeft`, `playerX`, shots and enemies, as it is. -/
theorem over_noop (s : State) (gameH rType rX gameW enemyW enemyH : Rat)
    (offsetLeft offsetWidth offsetTop playerW : Rat) (direction : String)
    (h : s.isGameOver = true) :
    gameLoop s gameH = s ∧
    updateTimer s = s ∧
    spawnEnemy s rType rX gameW enemyW enemyH = s ∧
    shoot s offsetLeft offsetWidth offsetTop = s ∧
    movePlayer s direction gameW playerW = s := by
  refine ⟨?_, ?_, ?_, ?_, ?_⟩
  · unfold gameLoop
    rw [if_pos h]
  · unfold updateTimer
    rw [if_pos h]
  · unfold spawnEnemy
    rw [if_pos h]
  · unfold shoot
    rw [if_pos h]
  · unfold movePlayer
    rw [if_pos h]

theorem over_noop_witness :
    sampleEnded.isGameOver = true ∧
    gameLoop sampleEnded 600 = sampleEnded ∧
    updateTimer sampleEnded = sampleEnded ∧
    spawnEnemy sampleEnded (1 / 2) (1 / 2) 400 45 40 = sampleEnded ∧
    shoot sampleEnded 180 40 500 = sampleEnded ∧
    movePlayer sampleEnded "left" 400 40 = sampleEnded := by
  have h : sampleEnded.isGameOver = true := by
    rw [sampleEnded_eq]
    rfl
  exact ⟨h, over_noop sampleEnded 600 (1 / 2) (1 / 2) 400 45 40 180 40 500 40 "left" h⟩

/-! ## Score and counters: theorems -/

theorem handleCollision_cases (s : State) (shot : Shot) (enemy : Enemy) :
    (scoring (handleCollision s shot enemy) =
        (max 0 (s.score + 100), s.correctAnswers + 1, s.wrongAnswers)) ∨
    (scoring (handleCollision s shot enemy) =
        (max 0 (s.score - 20), s.correctAnswers, s.wrongAnswers + 1)) := by
  unfold handleCollision
  by_cases h : shot.type = enemy.correctShot
  · left
    simp only [h, if_true]
    rfl
  · right
    simp only [h, if_false]
    rfl

theorem handleCollision_score_inv (s : State) (shot : Shot) (enemy : Enemy)
    (h : 100 * (s.correctAnswers : Int) - 20 * (s.wrongAnswers : Int) ≤ s.score ∧
      s.score ≤ 100 * (s.correctAnswers : Int) ∧ (20 : Int) ∣ s.score ∧ 0 ≤ s.score) :
    100 * ((handleCollision s shot enemy).correctAnswers : Int) -
        20 * ((handleCollision s shot enemy).wrongAnswers : Int) ≤
      (handleCollision s shot enemy).score ∧
    (handleCollision s shot enemy).score ≤
      100 * ((handleCollision s shot enemy).correctAnswers : Int) ∧
    (20 : Int) ∣ (handleCollision s shot enemy).score ∧
    0 ≤ (handleCollision s shot enemy).score := by
  obtain ⟨h1, h2, h3, h4⟩ := h
  rcases handleCollision_cases s shot enemy with hc | hc
  · simp only [scoring, Prod.mk.injEq] at hc
    obtain ⟨e1, e2, e3⟩ := hc
    rw [e1, e2, e3, max_eq_right (by omega)]
    refine ⟨by push_cast; omega, by push_cast; omega, ?_, by omega⟩
    exact Dvd.dvd.add h3 (by decide)
  · simp only [scoring, Prod.mk.injEq] at hc
    obtain ⟨e1, e2, e3⟩ := hc
    rw [e1, e2, e3]
    by_cases hlow : s.score - 20 ≤ 0
    · rw [max_eq_left hlow]
      refine ⟨by push_cast; omega, by omega, by decide, le_refl 0⟩
    · rw [max_eq_right (by omega)]
      refine ⟨by push_cast; omega, by omega, ?_, by omega⟩
      exact Dvd.dvd.sub h3 (by decide)

theorem resolveHits_score_inv (hits : List (Shot × Enemy)) :
    ∀ s : State,
      (100 * (s.correctAnswers : Int) - 20 * (s.wrongAnswers : Int) ≤ s.score ∧
        s.score ≤ 100 * (s.correctAnswers : Int) ∧ (20 : Int) ∣ s.score ∧ 0 ≤ s.score) →
      100 * ((resolveHits s hits).correctAnswers : Int) -
          20 * ((resolveHits s hits).wrongAnswers : Int) ≤ (resolveHits s hits).score ∧
      (resolveHits s hits).score ≤ 100 * ((resolveHits s hits).correctAnswers : Int) ∧
      (20 : Int) ∣ (resolveHits s hits).score ∧ 0 ≤ (resolveHits s hits).score := by
  induction hits with
  | nil => intro s h; exact h
  | cons p rest ih =>
    intro s h
    exact ih (handleCollision s p.1 p.2) (handleCollision_score_inv s p.1 p.2 h)

/-- C26: after any sequence of hits on the state `startGame` leaves, the score
lies between 100 times the correct answers minus 20 times the wrong answers
and 100 times the correct answers, and it is a multiple of 20. -/
theorem score_between (s : State) (hits : List (Shot × Enemy)) :
    100 * ((resolveHits (startGame s) hits).correctAnswers : Int) -
        20 * ((resolveHits (startGame s) hits).wrongAnswers : Int) ≤
      (resolveHits (startGame s) hits).score ∧
    (resolveHits (startGame s) hits).score ≤
      100 * ((resolveHits (startGame s) hits).correctAnswers : Int) ∧
    (20 : Int) ∣ (resolveHits (startGame s) hits).score := by
  have h0 : 100 * ((startGame s).correctAnswers : Int) - 20 * ((startGame s).wrongAnswers : Int) ≤
        (startGame s).score ∧
      (startGame s).score ≤ 100 * ((startGame s).correctAnswers : Int) ∧
      (20 : Int) ∣ (startGame s).score ∧ 0 ≤ (startGame s).score := by
    show 100 * ((0 : Nat) : Int) - 20 * ((0 : Nat) : Int) ≤ 0 ∧
      (0 : Int) ≤ 100 * ((0 : Nat) : Int) ∧ (20 : Int) ∣ 0 ∧ (0 : Int) ≤ 0
    decide
  obtain ⟨h1, h2, h3, _⟩ := resolveHits_score_inv hits (startGame s) h0
  exact ⟨h1, h2, h3⟩

/-! ## Selection and table: theorems -/

theorem handleCollision_settings (s : State) (shot : Shot) (enemy : Enemy) :
    settings (handleCollision s shot enemy) = settings s := by
  unfold handleCollision
  split <;> rfl

theorem checkCollisionsInner_settings (s : State) (i : Nat) (shot : Shot) (j : Nat) :
    settings (checkCollisionsInner s i shot j) = settings s := by
  induction j with
  | zero => rfl
  | succ j ih =>
    cases he : s.enemies[j]? with
    | none =>
      rw [checkCollisionsInner]
      simp [he]
    | some enemy =>
      rw [checkCollisionsInner_succ s i shot j enemy he]
      split
      · exact handleCollision_settings s shot enemy
      · exact ih

theorem checkCollisionsOuter_settings (i : Nat) :
    ∀ s : State, settings (checkCollisionsOuter s i) = settings s := by
  induction i with
  | zero => intro s; rfl
  | succ i ih =>
    intro s
    cases hs : s.shots[i]? with
    | none => rw [checkCollisionsOuter_none s i hs]
    | some shot =>
      rw [checkCollisionsOuter_succ s i shot hs, ih]
      exact checkCollisionsInner_settings s i shot s.enemies.length

theorem gameLoop_settings (s : State) (gameH : Rat) :
    settings (gameLoop s gameH) = settings s := by
  unfold gameLoop
  split
  · rfl
  · exact checkCollisionsOuter_settings _ (moveEnemies (moveShots s) gameH)

theorem spawnEnemy_cases (s : State) (rType rX gameW enemyW enemyH : Rat) :
    spawnEnemy s rType rX gameW enemyW enemyH = s ∨
    ∃ t ∈ enemyTypes,
      spawnEnemy s rType rX gameW enemyW enemyH =
        { s with
          enemies := s.enemies ++
            [⟨⟨rX * (gameW - 45), -60, enemyW, enemyH⟩, t.type, t.correctShot,
              rX * (gameW - 45), -60⟩] } := by
  unfold spawnEnemy
  by_cases hover : s.isGameOver = true
  · left
    rw [if_pos hover]
  · rw [if_neg hover]
    dsimp only
    by_cases hk : Rat.floor (rType * (enemyTypes.length : Rat)) < 0
    · left
      rw [if_pos hk]
    · rw [if_neg hk]
      cases ht : enemyTypes[(Rat.floor (rType * (enemyTypes.length : Rat))).toNat]? with
      | none => left; rfl
      | some t =>
        dsimp only
        by_cases hg : gameW = 0 ∨ gameW ≤ 0
        · left
          rw [if_pos hg]
        · right
          rw [if_neg hg]
          exact ⟨t, List.mem_iff_getElem?.mpr ⟨_, ht⟩, rfl⟩

theorem spawnEnemy_settings (s : State) (rType rX gameW enemyW enemyH : Rat) :
    settings (spawnEnemy s rType rX gameW enemyW enemyH) = settings s := by
  rcases spawnEnemy_cases s rType rX gameW enemyW enemyH with h | ⟨t, _, h⟩
  · rw [h]
  · rw [h]
    rfl

theorem shoot_settings (s : State) (offsetLeft offsetWidth offsetTop : Rat) :
    settings (shoot s offsetLeft offsetWidth offsetTop) = settings s := by
  unfold shoot
  split <;> rfl

theorem movePlayer_settings (s : State) (direction : String) (gameW playerW : Rat) :
    settings (movePlayer s direction gameW playerW) = settings s := by
  unfold movePlayer
  split
  · rfl
  · split <;> rfl

theorem endGame_settings (s : State) : settings (endGame s) = settings s := by
  unfold endGame
  split <;> rfl

theorem updateTimer_settings (s : State) : settings (updateTimer s) = settings s := by
  unfold updateTimer
  split
  · rfl
  · dsimp only
    split
    · exact endGame_settings _
    · rfl

theorem selectedShotType_of_settings (a b : State) (h : settings a = settings b) :
    a.selectedShotType = b.selectedShotType := by
  simp only [settings, Prod.mk.injEq] at h
  exact h.1

/-- C30: `startGame` leaves `selectedShotType` and `difficulty` as they are,
so a shot type selected before the round is still selected in the round.  The
default is restored by `resetGame`; of the other handlers only the two
selection handlers write `selectedShotType`. -/
theorem startGame_keeps_settings (s : State) (shotType : String) (c : Command) :
    (startGame s).selectedShotType = s.selectedShotType ∧
    (startGame s).difficulty = s.difficulty ∧
    (startGame (shotButtonClick s shotType)).selectedShotType = shotType ∧
    (resetGame s).selectedShotType = "lubricant" ∧
    (match c with
      | Command.resetGame => (step s c).selectedShotType = "lubricant"
      | Command.shotButtonClick t => (step s c).selectedShotType = t
      | Command.selectShotByIndex _ _ => True
      | _ => (step s c).selectedShotType = s.selectedShotType) := by
  refine ⟨rfl, rfl, rfl, rfl, ?_⟩
  cases c with
  | startGame => rfl
  | difficultyClick d => rfl
  | resetGame => rfl
  | updateTimer => exact selectedShotType_of_settings _ _ (updateTimer_settings s)
  | gameLoop gameH => exact selectedShotType_of_settings _ _ (gameLoop_settings s gameH)
  | spawnEnemy rType rX gameW enemyW enemyH =>
    exact selectedShotType_of_settings _ _ (spawnEnemy_settings s rType rX gameW enemyW enemyH)
  | shoot offsetLeft offsetWidth offsetTop =>
    exact selectedShotType_of_settings _ _ (shoot_settings s offsetLeft offsetWidth offsetTop)
  | movePlayer direction gameW playerW =>
    exact selectedShotType_of_settings _ _ (movePlayer_settings s direction gameW playerW)
  | shotButtonClick t => rfl
  | selectShotByIndex index buttons => trivial

/-- C21, as stated, fails in phase Ended: after a full round, selecting the
index 1, whose kind is `antihistaminic`, through `selectShotByIndex` leaves
the selected type at `lubricant`. -/
theorem selectShotByIndex_ended_counterexample :
    phase sampleEnded = Phase.Ended ∧
    shotTypes[1]? = some "antihistaminic" ∧
    (selectShotByIndex sampleEnded 1 shotTypes).selectedShotType = "lubricant" := by
  rw [sampleEnded_eq]
  refine ⟨by decide!, by decide!, by decide!⟩

/-- C21, amended: a selection button sets `selectedShotType` to its kind in
every phase, Ended included.  `selectShotByIndex` sets it to the kind of the
button at the index when the game is not over and the index is in range; when
the game is over, or the index is out of range, it leaves the state as it
is. -/
theorem selection_spec (s : State) (index : Int) (buttons : List String) (shotType : String) :
    (shotButtonClick s shotType).selectedShotType = shotType ∧
    (s.isGameOver = true → selectShotByIndex s index buttons = s) ∧
    (s.isGameOver = false → ∀ kind, 0 ≤ index → buttons[index.toNat]? = some kind →
      selectShotByIndex s index buttons = { s with selectedShotType := kind }) ∧
    (s.isGameOver = false → (index < 0 ∨ (buttons.length : Int) ≤ index) →
      selectShotByIndex s index buttons = s) ∧
    (selectShotByIndex initialState 4 shotTypes).selectedShotType = "ts" ∧
    (selectShotByIndex (startGame initialState) 3 shotTypes).selectedShotType = "cs" ∧
    (selectShotByIndex (startGame initialState) 5 shotTypes).selectedShotType = "lubricant" := by
  refine ⟨rfl, ?_, ?_, ?_, by decide!, by decide!, by decide!⟩
  · intro h
    unfold selectShotByIndex
    rw [if_pos h]
  · intro h kind h0 hk
    have hlt : index.toNat < buttons.length := (List.getElem?_eq_some.mp hk).1
    have hin : index ≥ 0 ∧ index < (buttons.length : Int) := ⟨h0, by omega⟩
    unfold selectShotByIndex
    rw [if_neg (by simp [h]), if_pos hin]
    simp only [hk]
  · intro h hout
    have hin : ¬ (index ≥ 0 ∧ index < (buttons.length : Int)) := by
      intro hc
      omega
    unfold selectShotByIndex
    rw [if_neg (by simp [h]), if_neg hin]

/-- C22: the table `enemyTypes` has 5 rows with pairwise distinct types and
pairwise distinct values of `correctShot`; these values are exactly the 5 keys
of `shotTypes`; and `spawnEnemy` either leaves the state as it is or appends
one enemy whose type and `correctShot` are those of one row of the table, so
that the enemy carries the `correctShot` the table gives for its type. -/
theorem enemyTypes_one_to_one (s : State) (rType rX gameW enemyW enemyH : Rat) :
    enemyTypes.length = 5 ∧
    (enemyTypes.map (fun t => t.type)).Nodup ∧
    (enemyTypes.map (fun t => t.correctShot)).Nodup ∧
    shotTypes.length = 5 ∧
    (∀ k, k ∈ enemyTypes.map (fun t => t.correctShot) ↔ k ∈ shotTypes) ∧
    (spawnEnemy s rType rX gameW enemyW enemyH = s ∨
      ∃ t ∈ enemyTypes,
        spawnEnemy s rType rX gameW enemyW enemyH =
          { s with
            enemies := s.enemies ++
              [⟨⟨rX * (gameW - 45), -60, enemyW, enemyH⟩, t.type, t.correctShot,
                rX * (gameW - 45), -60⟩] } ∧
        ∀ t2 ∈ enemyTypes, t2.type = t.type → t2.correctShot = t.correctShot) := by
  refine ⟨rfl, by decide, by decide, rfl, ?_, ?_⟩
  · intro k
    have e : enemyTypes.map (fun t => t.correctShot) = shotTypes := by decide
    rw [e]
  · rcases spawnEnemy_cases s rType rX gameW enemyW enemyH with h | ⟨t, ht, h⟩
    · exact Or.inl h
    · refine Or.inr ⟨t, ht, h, ?_⟩
      have hfun : ∀ a ∈ enemyTypes, ∀ b ∈ enemyTypes, a.type = b.type →
          a.correctShot = b.correctShot := by decide
      intro t2 ht2 heq
      exact hfun t2 ht2 t ht heq

/-! ## Order of motion and collision resolution: theorems -/

theorem handleCollision_scoring_congr (a b : State) (shot : Shot) (enemy : Enemy)
    (h : scoring a = scoring b) :
    scoring (handleCollision a shot enemy) = scoring (handleCollision b shot enemy) := by
  simp only [scoring, Prod.mk.injEq] at h
  obtain ⟨h1, h2, h3⟩ := h
  unfold handleCollision
  by_cases hk : shot.type = enemy.correctShot
  · simp only [hk, if_true, scoring, h1, h2, h3]
  · simp only [hk, if_false, scoring, h1, h2, h3]

theorem resolveHits_scoring_congr (hits : List (Shot × Enemy)) :
    ∀ a b : State, scoring a = scoring b →
      scoring (resolveHits a hits) = scoring (resolveHits b hits) := by
  induction hits with
  | nil => intro a b h; exact h
  | cons p rest ih =>
    intro a b h
    exact ih _ _ (handleCollision_scoring_congr a b p.1 p.2 h)

theorem handleCollisionCallsInner_succ (s : State) (shot : Shot) (j : Nat) (enemy : Enemy)
    (he : s.enemies[j]? = some enemy) :
    handleCollisionCallsInner s shot (j + 1) =
      if isColliding (some shot.element) (some enemy.element) then [(shot, enemy)]
      else handleCollisionCallsInner s shot j := by
  rw [handleCollisionCallsInner]
  simp only [he]

theorem checkCollisionsInner_scoring (s : State) (i : Nat) (shot : Shot) (j : Nat) :
    scoring (checkCollisionsInner s i shot j) =
      scoring (resolveHits s (handleCollisionCallsInner s shot j)) := by
  induction j with
  | zero => rfl
  | succ j ih =>
    cases he : s.enemies[j]? with
    | none =>
      rw [checkCollisionsInner, handleCollisionCallsInner]
      simp only [he]
      rfl
    | some enemy =>
      rw [checkCollisionsInner_succ s i shot j enemy he,
        handleCollisionCallsInner_succ s shot j enemy he]
      by_cases hc : isColliding (some shot.element) (some enemy.element) = true
      · rw [if_pos hc, if_pos hc]
        rfl
      · rw [if_neg hc, if_neg hc]
        exact ih

theorem handleCollisionCallsOuter_succ (s : State) (i : Nat) (shot : Shot)
    (hs : s.shots[i]? = some shot) :
    handleCollisionCallsOuter s (i + 1) =
      handleCollisionCallsInner s shot s.enemies.length ++
        handleCollisionCallsOuter (checkCollisionsInner s i shot s.enemies.length) i := by
  rw [handleCollisionCallsOuter]
  simp only [hs]

theorem checkCollisionsOuter_scoring (i : Nat) :
    ∀ s : State, scoring (checkCollisionsOuter s i) =
      scoring (resolveHits s (handleCollisionCallsOuter s i)) := by
  induction i with
  | zero => intro s; rfl
  | succ i ih =>
    intro s
    cases hs : s.shots[i]? with
    | none =>
      rw [checkCollisionsOuter_none s i hs, handleCollisionCallsOuter]
      simp only [hs]
      rfl
    | some shot =>
      rw [checkCollisionsOuter_succ s i shot hs, handleCollisionCallsOuter_succ s i shot hs,
        resolveHits_append, ih]
      exact resolveHits_scoring_congr _ _ _ (checkCollisionsInner_scoring s i shot _)

theorem handleCollisionCallsInner_mem (s : State) (shot : Shot) (j : Nat) :
    ∀ p ∈ handleCollisionCallsInner s shot j,
      p.1 = shot ∧ p.2 ∈ s.enemies ∧
        isColliding (some p.1.element) (some p.2.element) = true := by
  induction j with
  | zero =>
    intro p hp
    simp [handleCollisionCallsInner] at hp
  | succ j ih =>
    intro p hp
    cases he : s.enemies[j]? with
    | none =>
      rw [handleCollisionCallsInner] at hp
      simp [he] at hp
    | some enemy =>
      rw [handleCollisionCallsInner_succ s shot j enemy he] at hp
      by_cases hc : isColliding (some shot.element) (some enemy.element) = true
      · rw [if_pos hc] at hp
        have hp2 : p = (shot, enemy) := by simpa using hp
        rw [hp2]
        exact ⟨rfl, List.mem_iff_getElem?.mpr ⟨j, he⟩, hc⟩
      · rw [if_neg hc] at hp
        exact ih p hp

theorem handleCollisionCallsOuter_mem (i : Nat) :
    ∀ s : State, ∀ p ∈ handleCollisionCallsOuter s i,
      p.1 ∈ s.shots ∧ p.2 ∈ s.enemies ∧
        isColliding (some p.1.element) (some p.2.element) = true := by
  induction i with
  | zero =>
    intro s p hp
    simp [handleCollisionCallsOuter] at hp
  | succ i ih =>
    intro s p hp
    cases hs : s.shots[i]? with
    | none =>
      rw [handleCollisionCallsOuter] at hp
      simp [hs] at hp
    | some shot =>
      rw [handleCollisionCallsOuter_succ s i shot hs] at hp
      rcases List.mem_append.mp hp with h1 | h2
      · obtain ⟨a1, a2, a3⟩ := handleCollisionCallsInner_mem s shot _ p h1
        refine ⟨?_, a2, a3⟩
        rw [a1]
        exact List.mem_iff_getElem?.mpr ⟨i, hs⟩
      · obtain ⟨b1, b2, b3⟩ := ih _ p h2
        obtain ⟨_, c1, c2, _, _, _⟩ := checkCollisionsInner_removes s i shot hs
        exact ⟨c1.subset b1, c2.subset b2, b3⟩

theorem moveShots_shots (s : State) :
    (moveShots s).shots =
      (s.shots.map (fun shot =>
        ({ shot with
           y := shot.y - 8
           element := { shot.element with top := shot.y - 8 } } : Shot))).filter
        (fun shot => !decide (shot.y < -shot.element.offsetHeight)) := by
  have h := moveShotsLoop_append s.shots []
  simp only [List.append_nil] at h
  exact h

theorem moveEnemies_enemies (s : State) (gameH : Rat) (hH : 0 < gameH) :
    (moveEnemies s gameH).enemies =
      (s.enemies.map (fun enemy =>
        ({ enemy with
           y := enemy.y + enemySpeed s.difficulty
           element := { enemy.element with top := enemy.y + enemySpeed s.difficulty } }
          : Enemy))).filter
        (fun enemy => !decide (enemy.y + enemy.element.offsetHeight > gameH)) := by
  have h := moveEnemiesLoop_append (enemySpeed s.difficulty) gameH hH s.enemies []
  simp only [List.append_nil] at h
  exact h

/-- C25: in a `gameLoop` tick of a round that is not over, in a field of
positive height, the collision pass runs on the lists left by `moveShots` and
`moveEnemies`.  So every pair it hands to `handleCollision` is a moved shot
that is not above the field, its `y` being at least minus its height, and a
moved enemy that is not below it, its `y` plus its height being at most the
field height; and the score and counters after the tick are those of these
calls. -/
theorem collisions_after_eviction (s : State) (gameH : Rat) (hover : s.isGameOver = false)
    (hH : 0 < gameH) :
    gameLoop s gameH = checkCollisions (moveEnemies (moveShots s) gameH) ∧
    scoring (gameLoop s gameH) =
      scoring (resolveHits s (handleCollisionCalls (moveEnemies (moveShots s) gameH))) ∧
    ∀ p ∈ handleCollisionCalls (moveEnemies (moveShots s) gameH),
      p.1.y ≥ -p.1.element.offsetHeight ∧
      p.2.y + p.2.element.offsetHeight ≤ gameH ∧
      (∃ shot ∈ s.shots, p.1.y = shot.y - 8) ∧
      (∃ enemy ∈ s.enemies, p.2.y = enemy.y + enemySpeed s.difficulty) := by
  have hloop : gameLoop s gameH = checkCollisions (moveEnemies (moveShots s) gameH) := by
    unfold gameLoop
    rw [if_neg (by simp [hover])]
    rfl
  refine ⟨hloop, ?_, ?_⟩
  · rw [hloop]
    unfold checkCollisions handleCollisionCalls
    rw [checkCollisionsOuter_scoring]
    exact resolveHits_scoring_congr _ _ _ rfl
  · intro p hp
    obtain ⟨h1, h2, _⟩ := handleCollisionCallsOuter_mem _ _ p hp
    have h1b : p.1 ∈ (moveShots s).shots := h1
    have h2b : p.2 ∈ (moveEnemies (moveShots s) gameH).enemies := h2
    rw [moveShots_shots] at h1b
    rw [moveEnemies_enemies _ _ hH] at h2b
    obtain ⟨hm1, hk1⟩ := List.mem_filter.mp h1b
    obtain ⟨hm2, hk2⟩ := List.mem_filter.mp h2b
    obtain ⟨shot, hshot, hshot2⟩ := List.mem_map.mp hm1
    obtain ⟨enemy, henemy, henemy2⟩ := List.mem_map.mp hm2
    refine ⟨?_, ?_, ⟨shot, hshot, ?_⟩, ⟨enemy, henemy, ?_⟩⟩
    · simpa using hk1
    · simpa using hk2
    · rw [← hshot2]
    · rw [← henemy2]
      rfl

theorem collisions_after_eviction_witness :
    (samplePair "dry-eye" "lubricant").isGameOver = false ∧
    (0 : Rat) < 600 ∧
    ((⟨⟨196, 92, 8, 15⟩, "lubricant", 196, 92⟩,
        ⟨⟨180, 81, 45, 40⟩, "dry-eye", "lubricant", 180, 81⟩) : Shot × Enemy) ∈
      handleCollisionCalls (moveEnemies (moveShots (samplePair "dry-eye" "lubricant")) 600) ∧
    (92 : Rat) ≥ -15 ∧ (81 : Rat) + 40 ≤ 600 := by
  have h := (collisions_after_eviction (samplePair "dry-eye" "lubricant") 600 rfl
    (by norm_num)).2.2
    (⟨⟨196, 92, 8, 15⟩, "lubricant", 196, 92⟩,
      ⟨⟨180, 81, 45, 40⟩, "dry-eye", "lubricant", 180, 81⟩) (by decide!)
  exact ⟨rfl, by norm_num, by decide!, h.1, h.2.1⟩

/-! ## Hits against shots fired and enemies spawned: theorems -/

theorem handleCollision_score_le (s : State) (shot : Shot) (enemy : Enemy)
    (h : s.score ≤ 100 * (s.correctAnswers : Int)) :
    (handleCollision s shot enemy).score ≤
      100 * ((handleCollision s shot enemy).correctAnswers : Int) := by
  rcases handleCollision_cases s shot enemy with hc | hc
  · simp only [scoring, Prod.mk.injEq] at hc
    obtain ⟨e1, e2, _⟩ := hc
    rw [e1, e2]
    apply max_le
    · push_cast
      omega
    · push_cast
      omega
  · simp only [scoring, Prod.mk.injEq] at hc
    obtain ⟨e1, e2, _⟩ := hc
    rw [e1, e2]
    apply max_le
    · omega
    · omega

theorem resolveHits_score_le (hits : List (Shot × Enemy)) :
    ∀ s : State, s.score ≤ 100 * (s.correctAnswers : Int) →
      (resolveHits s hits).score ≤ 100 * ((resolveHits s hits).correctAnswers : Int) := by
  induction hits with
  | nil => intro s h; exact h
  | cons p rest ih =>
    intro s h
    exact ih _ (handleCollision_score_le s p.1 p.2 h)

theorem checkCollisions_score_le (s : State) (h : s.score ≤ 100 * (s.correctAnswers : Int)) :
    (checkCollisions s).score ≤ 100 * ((checkCollisions s).correctAnswers : Int) := by
  have hsc := checkCollisionsOuter_scoring s.shots.length s
  have hle := resolveHits_score_le (handleCollisionCallsOuter s s.shots.length) s h
  simp only [scoring, Prod.mk.injEq] at hsc
  obtain ⟨e1, e2, _⟩ := hsc
  unfold checkCollisions
  rw [e1, e2]
  exact hle

theorem moveShotsLoop_length_le (n : Nat) :
    ∀ l : List Shot, (moveShotsLoop l n).length ≤ l.length := by
  induction n with
  | zero => intro l; exact Nat.le_refl _
  | succ n ih =>
    intro l
    rw [moveShotsLoop]
    cases l[n]? with
    | none => exact Nat.le_refl _
    | some shot =>
      dsimp only
      split
      · exact Nat.le_trans (ih _) (List.length_eraseIdx_le l n)
      · have := ih (l.set n
          { shot with
            y := shot.y - shotSpeed
            element := { shot.element with top := shot.y - shotSpeed } })
        rwa [List.length_set] at this

theorem moveEnemiesLoop_length_le (speed gameH : Rat) (n : Nat) :
    ∀ l : List Enemy, (moveEnemiesLoop speed gameH l n).length ≤ l.length := by
  induction n with
  | zero => intro l; exact Nat.le_refl _
  | succ n ih =>
    intro l
    rw [moveEnemiesLoop]
    cases l[n]? with
    | none => exact Nat.le_refl _
    | some enemy =>
      dsimp only
      split
      · exact Nat.le_trans (ih _) (List.length_eraseIdx_le l n)
      · have := ih (l.set n
          { enemy with
            y := enemy.y + speed
            element := { enemy.element with top := enemy.y + speed } })
        rwa [List.length_set] at this

theorem gameLoop_hitsWithin (s : State) (gameH : Rat) (a b : Nat) (h : hitsWithin s a b) :
    hitsWithin (gameLoop s gameH) a b := by
  unfold gameLoop
  by_cases hover : s.isGameOver = true
  · rw [if_pos hover]
    exact h
  · rw [if_neg hover]
    obtain ⟨h1, h2, h3⟩ := h
    have hs : (moveEnemies (moveShots s) gameH).shots.length ≤ s.shots.length :=
      moveShotsLoop_length_le _ _
    have he : (moveEnemies (moveShots s) gameH).enemies.length ≤ s.enemies.length :=
      moveEnemiesLoop_length_le _ _ _ _
    have hc : (moveEnemies (moveShots s) gameH).correctAnswers = s.correctAnswers := rfl
    have hw : (moveEnemies (moveShots s) gameH).wrongAnswers = s.wrongAnswers := rfl
    have hsc : (moveEnemies (moveShots s) gameH).score = s.score := rfl
    obtain ⟨n, _, _, r1, r2, r3⟩ :=
      checkCollisionsOuter_removes (moveEnemies (moveShots s) gameH).shots.length
        (moveEnemies (moveShots s) gameH)
    have hle := checkCollisions_score_le (moveEnemies (moveShots s) gameH)
      (by rw [hsc, hc]; exact h3)
    refine ⟨?_, ?_, hle⟩
    · show (checkCollisionsOuter _ _).correctAnswers + (checkCollisionsOuter _ _).wrongAnswers +
        (checkCollisionsOuter _ _).shots.length ≤ a
      omega
    · show (checkCollisionsOuter _ _).correctAnswers + (checkCollisionsOuter _ _).wrongAnswers +
        (checkCollisionsOuter _ _).enemies.length ≤ b
      omega

theorem endGame_roundData (s : State) : roundData (endGame s) = roundData s := by
  unfold endGame
  split <;> rfl

theorem updateTimer_roundData (s : State) : roundData (updateTimer s) = roundData s := by
  unfold updateTimer
  split
  · rfl
  · dsimp only
    split
    · exact endGame_roundData _
    · rfl

theorem movePlayer_roundData (s : State) (direction : String) (gameW playerW : Rat) :
    roundData (movePlayer s direction gameW playerW) = roundData s := by
  unfold movePlayer
  split
  · rfl
  · split <;> rfl

theorem hitsWithin_of_roundData (s t : State) (a b : Nat) (h : roundData t = roundData s)
    (hs : hitsWithin s a b) : hitsWithin t a b := by
  simp only [roundData, Prod.mk.injEq] at h
  obtain ⟨e1, e2, e3, e4, e5⟩ := h
  unfold hitsWithin
  rw [e1, e2, e3, e4, e5]
  exact hs

theorem step_hitsWithin (s : State) (c : Command) (a b : Nat) (hc : inRound c = true)
    (h : hitsWithin s a b) :
    hitsWithin (step s c) (a + (if isShoot c then 1 else 0))
      (b + (if isSpawn c then 1 else 0)) := by
  cases c with
  | startGame => cases hc
  | difficultyClick d => cases hc
  | resetGame => cases hc
  | shotButtonClick t => cases hc
  | selectShotByIndex index buttons => cases hc
  | updateTimer => exact hitsWithin_of_roundData s _ _ _ (updateTimer_roundData s) h
  | gameLoop gameH => exact gameLoop_hitsWithin s gameH _ _ h
  | movePlayer direction gameW playerW =>
    exact hitsWithin_of_roundData s _ _ _ (movePlayer_roundData s direction gameW playerW) h
  | shoot offsetLeft offsetWidth offsetTop =>
    obtain ⟨h1, h2, h3⟩ := h
    show hitsWithin (shoot s offsetLeft offsetWidth offsetTop) (a + 1) (b + 0)
    unfold shoot
    by_cases hover : s.isGameOver = true
    · rw [if_pos hover]
      exact ⟨by omega, by omega, h3⟩
    · rw [if_neg hover]
      refine ⟨?_, by simpa using h2, h3⟩
      show s.correctAnswers + s.wrongAnswers + (s.shots ++ [_]).length ≤ a + 1
      rw [List.length_append]
      simp only [List.length_singleton]
      omega
  | spawnEnemy rType rX gameW enemyW enemyH =>
    obtain ⟨h1, h2, h3⟩ := h
    show hitsWithin (spawnEnemy s rType rX gameW enemyW enemyH) (a + 0) (b + 1)
    rcases spawnEnemy_cases s rType rX gameW enemyW enemyH with he | ⟨t, _, he⟩
    · rw [he]
      exact ⟨by omega, by omega, h3⟩
    · rw [he]
      refine ⟨by simpa using h1, ?_, h3⟩
      show s.correctAnswers + s.wrongAnswers + (s.enemies ++ [_]).length ≤ b + 1
      rw [List.length_append]
      simp only [List.length_singleton]
      omega

theorem run_hitsWithin (cs : List Command) :
    ∀ (s : State) (a b : Nat), (∀ c ∈ cs, inRound c = true) → hitsWithin s a b →
      hitsWithin (run s cs) (a + shootCalls cs) (b + spawnCalls cs) := by
  induction cs with
  | nil =>
    intro s a b _ h
    exact h
  | cons c rest ih =>
    intro s a b hall h
    have hstep := step_hitsWithin s c a b (hall c (List.mem_cons_self c rest)) h
    have hrest := ih (step s c) _ _ (fun x hx => hall x (List.mem_cons_of_mem c hx)) hstep
    have e1 : a + shootCalls (c :: rest) = a + (if isShoot c then 1 else 0) + shootCalls rest := by
      unfold shootCalls
      rw [List.countP_cons]
      omega
    have e2 : b + spawnCalls (c :: rest) = b + (if isSpawn c then 1 else 0) + spawnCalls rest := by
      unfold spawnCalls
      rw [List.countP_cons]
      omega
    rw [e1, e2]
    exact hrest

/-- C27: after `startGame` and any sequence of `shoot`, `spawnEnemy`,
`gameLoop`, `movePlayer` and `updateTimer` runs, the number of answers
counted is at most the number of `shoot` calls and at most the number of
`spawnEnemy` calls of the sequence, and the score is at most 100 times the
number of `spawnEnemy` calls. -/
theorem hits_bounded (s : State) (cs : List Command) (h : ∀ c ∈ cs, inRound c = true) :
    (run (startGame s) cs).correctAnswers + (run (startGame s) cs).wrongAnswers ≤
      shootCalls cs ∧
    (run (startGame s) cs).correctAnswers + (run (startGame s) cs).wrongAnswers ≤
      spawnCalls cs ∧
    (run (startGame s) cs).score ≤ 100 * (spawnCalls cs : Int) := by
  have h0 : hitsWithin (startGame s) 0 0 := ⟨Nat.le_refl 0, Nat.le_refl 0, Int.le_refl 0⟩
  obtain ⟨h1, h2, h3⟩ := run_hitsWithin cs (startGame s) 0 0 h h0
  rw [Nat.zero_add] at h1 h2
  refine ⟨by omega, by omega, ?_⟩
  have hc : ((run (startGame s) cs).correctAnswers : Int) ≤ (spawnCalls cs : Int) := by
    have : (run (startGame s) cs).correctAnswers ≤ spawnCalls cs := by omega
    exact_mod_cast this
  omega

theorem hits_bounded_witness :
    (∀ c ∈ sampleRound, inRound c = true) ∧
    (run (startGame initialState) sampleRound).correctAnswers = 1 ∧
    (run (startGame initialState) sampleRound).score = 100 ∧
    ((run (startGame initialState) sampleRound).correctAnswers +
        (run (startGame initialState) sampleRound).wrongAnswers ≤ shootCalls sampleRound ∧
      (run (startGame initialState) sampleRound).correctAnswers +
        (run (startGame initialState) sampleRound).wrongAnswers ≤ spawnCalls sampleRound ∧
      (run (startGame initialState) sampleRound).score ≤ 100 * (spawnCalls sampleRound : Int)) :=
  ⟨by decide, by decide!, by decide!, hits_bounded initialState sampleRound (by decide)⟩

end EyeInvaders
